import Mathlib

/-!
# EnergyLogger: tree flattener, filter engine, session controller, snapshot persistence

A shallow embedding of `src/index.js` (class `EnergyLogger`) and `src/database.js`
(class `EnergyDatabase`), followed by theorems about the embedded functions.

Conventions of the embedding:

* A JavaScript object that the program builds as a dictionary (`{}` plus `obj[key] = v`)
  is a `JSObj V`: its own enumerable string-keyed data properties in creation order.
  An assignment to the key `__proto__` reaches the accessor inherited from
  `Object.prototype` and creates no own property (`JSObj.set`).
* `undefined` read from a dictionary or an array is `none`.
* `Date.now()` is an explicit argument `now` (milliseconds).
* The SQLite engine (`better-sqlite3`) is a store of seven row lists; whether an
  `INSERT` throws is decided by an explicit oracle argument.
-/

set_option autoImplicit false

namespace EnergyLogger

/-! ## JavaScript dictionaries -/

/-- Own enumerable string-keyed data properties of a plain object, in creation order. -/
abbrev JSObj (V : Type) := List (String × V)

namespace JSObj

variable {V : Type}

/-- Own property `key` of an object; `none` when the object has no own property `key`.
For the keys the program reads this is the property read `obj[key]`. -/
def get : JSObj V → String → Option V
  | [], _ => none
  | (k, v) :: rest, key => if k = key then some v else get rest key

/-- Test `obj.hasOwnProperty(key)`. -/
def hasOwnProperty (o : JSObj V) (key : String) : Bool :=
  (get o key).isSome

/-- Creation or update of the own data property `key`: an existing property keeps its
position and takes the new value, a new property is created after all existing ones. -/
def defineOwn : JSObj V → String → V → JSObj V
  | [], key, v => [(key, v)]
  | (k, w) :: rest, key, v =>
    if k = key then (k, v) :: rest else (k, w) :: defineOwn rest key v

/-- Assignment `obj[key] = v` on an object created as `{}`: the key `__proto__` reaches
the accessor inherited from `Object.prototype` and creates no own property (the setter
ignores a string or `undefined` and makes an object the prototype); every other key
creates or updates the own data property. -/
def set (o : JSObj V) (key : String) (v : V) : JSObj V :=
  if key = "__proto__" then o else defineOwn o key v

/-- Numeric value of a string of decimal digits, `none` if some character is not a digit. -/
def digitsValue : List Char → Nat → Option Nat
  | [], acc => some acc
  | c :: cs, acc => if c.isDigit then digitsValue cs (acc * 10 + (c.toNat - 48)) else none

/-- Array index of a property key: the key is the canonical decimal form of an integer
`i` with `0 ≤ i < 2^32 - 1` (ECMAScript "array index"). -/
def arrayIndex (key : String) : Option Nat :=
  match key.data with
  | [] => none
  | [c] => if c.isDigit then some (c.toNat - 48) else none
  | c :: cs =>
    if c = '0' then none
    else match digitsValue (c :: cs) 0 with
      | some n => if n < 4294967295 then some n else none
      | none => none

/-- Order of two index-keyed properties: ascending numeric index. -/
def indexLe (a b : String × V) : Prop :=
  (arrayIndex a.1).getD 0 ≤ (arrayIndex b.1).getD 0

instance (a b : String × V) : Decidable (indexLe a b) := by
  unfold indexLe; infer_instance

/-- Own properties in the order of `OrdinaryOwnPropertyKeys`: array-index keys in
ascending numeric order first, then all other keys in creation order.  This is the order
in which `Object.entries`, `Object.values`, `Object.keys` and `Object.assign` visit them. -/
def ownEntries (o : JSObj V) : List (String × V) :=
  List.insertionSort indexLe (o.filter fun p => (arrayIndex p.1).isSome)
    ++ o.filter fun p => !(arrayIndex p.1).isSome

/-- Array `Object.values(obj)`. -/
def values (o : JSObj V) : List V :=
  (ownEntries o).map Prod.snd

/-- Array `Object.keys(obj)`. -/
def keys (o : JSObj V) : List String :=
  (ownEntries o).map Prod.fst

/-- Call `Object.assign(target, source)` for two dictionaries. -/
def assign (target source : JSObj V) : JSObj V :=
  (ownEntries source).foldl (fun acc p => set acc p.1 p.2) target

/-- Keys of a dictionary are pairwise different. -/
def NodupKeys (o : JSObj V) : Prop := (o.map Prod.fst).Nodup

end JSObj

/-! ## Nodes of a parsed message -/

/-- An element as `xml2js` delivers it: `name`, `value` and `item` are the arrays of
child elements of that tag (`none` when the element has no such child), `id` is the
attribute `$.id`. -/
inductive Node where
  | mk (name : Option (List String)) (value : Option (List String))
      (item : Option (List Node)) (id : Option String)

namespace Node

/-- Field `item.name`. -/
def name : Node → Option (List String)
  | .mk n _ _ _ => n

/-- Field `item.value`. -/
def value : Node → Option (List String)
  | .mk _ v _ _ => v

/-- Field `item.item`. -/
def item : Node → Option (List Node)
  | .mk _ _ i _ => i

/-- Attribute `item.$?.id`. -/
def id : Node → Option String
  | .mk _ _ _ i => i

/-- Expression `item.name ? item.name[0] : undefined`. -/
def firstName (n : Node) : Option String :=
  match n.name with
  | some names => names.head?
  | none => none

end Node

/-- Truthiness of a value that is a string or `undefined`. -/
def truthy : Option String → Bool
  | some s => s != ""
  | none => false

/-- A flattened section: field name to raw value (`none` is a stored `undefined`). -/
abbrev Section := JSObj (Option String)

mutual
/-- Loop `for (const item of items)` of `collectSectionData`, on the accumulator
`sectionData`. -/
def collectSectionData.loop : List Node → Section → Section
  | [], sectionData => sectionData
  | item :: rest, sectionData =>
    collectSectionData.loop rest (collectSectionData.body item sectionData)
/-- One iteration of the loop of `collectSectionData`. -/
def collectSectionData.body : Node → Section → Section
  | .mk nm value item _, sectionData =>
    let name : Option String := match nm with
      | some names => names.head?
      | none => none
    if value.isSome && truthy name then
      JSObj.set sectionData (name.getD "") (value.getD []).head?
    else match item with
      | some children =>
        if truthy name then
          JSObj.assign sectionData (collectSectionData.loop children [])
        else sectionData
      | none => sectionData
end

/-- Method `collectSectionData(items)` of `EnergyLogger`. -/
def collectSectionData (items : List Node) : Section :=
  collectSectionData.loop items []

/-! ### Specification side of the flattener -/

/-- The most recent write to `key` in a sequence of writes, if any. -/
def lastWrite {V : Type} (writes : List (String × V)) (key : String) : Option V :=
  ((writes.filter fun p => p.1 = key).getLast?).map Prod.snd

mutual
/-- Depth-first, left-to-right walk of a node list as the code performs it: a named node
with a value list is a leaf and is recorded with its first value (its children, if any,
are not visited); a named node with children and no value list is descended into. -/
def leafWalk : List Node → List (String × Option String)
  | [] => []
  | n :: rest => leafWalkNode n ++ leafWalk rest
/-- The part of the walk contributed by one node. -/
def leafWalkNode : Node → List (String × Option String)
  | .mk nm value item _ =>
    let name : Option String := match nm with
      | some names => names.head?
      | none => none
    if value.isSome && truthy name then [(name.getD "", (value.getD []).head?)]
    else match item with
      | some children => if truthy name then leafWalk children else []
      | none => []
end

/-! ## Filter engine -/

/-- A rule object of `config.heatpump.import_values` (parsed JSON): the optional keys
`include`, `exclude` and `nested`, and the names of any further keys. -/
inductive FilterConfig where
  | mk (includeRule : Option (List String)) (excludeRule : Option (List String))
      (nested : Option (List (String × FilterConfig))) (others : List String)

namespace FilterConfig

/-- Field `config.include`. -/
def includeRule : FilterConfig → Option (List String)
  | .mk i _ _ _ => i

/-- Field `config.exclude`. -/
def excludeRule : FilterConfig → Option (List String)
  | .mk _ e _ _ => e

/-- Value `Object.keys(config).length`. -/
def keyCount : FilterConfig → Nat
  | .mk i e n o =>
    (if i.isSome then 1 else 0) + (if e.isSome then 1 else 0) + (if n.isSome then 1 else 0)
      + o.length

end FilterConfig

/-- Call `list.includes(name)` for a list of strings and a name that is a string or
`undefined`. -/
def includesName (list : List String) (name : Option String) : Bool :=
  match name with
  | some s => list.contains s
  | none => false

/-- Method `filterItems(items, config)` of `EnergyLogger`; `none` is an absent
(`undefined` or `null`) config. -/
def filterItems (items : List Node) (config : Option FilterConfig) : List Node :=
  match config with
  | none => items
  | some c =>
    if c.keyCount = 0 then items
    else match c.includeRule with
      | some inc => items.filter fun item => includesName inc item.firstName
      | none =>
        match c.excludeRule with
        | some exc => items.filter fun item => !includesName exc item.firstName
        | none => items

/-! ## Value coercion -/

/-- A value read from category data: `undefined`, a string, or an object (a section). -/
inductive RawValue where
  | undefined
  | str (s : String)
  | obj (o : Section)
  deriving DecidableEq

namespace RawValue

/-- A string-or-`undefined` as a raw value. -/
def ofOption : Option String → RawValue
  | some s => str s
  | none => undefined

/-- JavaScript truthiness: `undefined` and the empty string are falsy, every other
string and every object is truthy. -/
def isTruthy : RawValue → Bool
  | undefined => false
  | str s => s != ""
  | obj _ => true

end RawValue

/-- An exception thrown while a snapshot is saved. -/
inductive JSError where
  | typeError
  | insertFailed
  deriving DecidableEq

deriving instance DecidableEq for Except

/-- A number as `parseFloat` reads it from a decimal literal: an infinity, or the
double nearest to `± mantissa * 10 ^ exponent` (the rounding to a double is not
modelled; `NaN` is the absence of a number). -/
inductive JSNumber where
  | infinity (negative : Bool)
  | decimal (negative : Bool) (mantissa : Nat) (exponent : Int)
  deriving DecidableEq

/-- Characters `TrimString` removes: ECMAScript `WhiteSpace` and `LineTerminator`. -/
def isStrWhiteSpaceChar (c : Char) : Bool :=
  [9, 10, 11, 12, 13, 32, 160, 5760, 8232, 8233, 8239, 8287, 12288, 65279].contains c.toNat
    || (8192 ≤ c.toNat && c.toNat ≤ 8202)

/-- Longest leading run of decimal digits, and the rest. -/
def spanDigits : List Char → List Char × List Char
  | [] => ([], [])
  | c :: cs =>
    if c.isDigit then ((c :: (spanDigits cs).1), (spanDigits cs).2) else ([], c :: cs)

/-- Value of a run of decimal digits. -/
def digitsToNat (ds : List Char) : Nat :=
  ds.foldl (fun acc c => acc * 10 + (c.toNat - 48)) 0

/-- Optional sign: whether it is `-`, and the rest. -/
def readSign : List Char → Bool × List Char
  | [] => (false, [])
  | c :: cs => if c = '+' then (false, cs) else if c = '-' then (true, cs) else (false, c :: cs)

/-- Optional `ExponentPart` (`e` or `E`, optional sign, at least one digit): its value
and the rest; value 0 and the input unchanged when there is none. -/
def readExponent : List Char → Int × List Char
  | [] => (0, [])
  | c :: cs =>
    if c = 'e' || c = 'E' then
      let signed := readSign cs
      let ds := spanDigits signed.2
      if ds.1.isEmpty then (0, c :: cs)
      else ((if signed.1 then - (digitsToNat ds.1 : Int) else (digitsToNat ds.1 : Int)), ds.2)
    else (0, c :: cs)

/-- Longest leading `StrUnsignedDecimalLiteral` other than `Infinity`: mantissa,
decimal exponent and the rest; `none` when no prefix is such a literal. -/
def readUnsignedDecimal (u : List Char) : Option (Nat × Int × List Char) :=
  let intPart := spanDigits u
  match intPart.2 with
  | c :: afterDot =>
    if c = '.' then
      let fracPart := spanDigits afterDot
      if intPart.1.isEmpty && fracPart.1.isEmpty then none
      else
        let e := readExponent fracPart.2
        some (digitsToNat (intPart.1 ++ fracPart.1), e.1 - (fracPart.1.length : Int), e.2)
    else if intPart.1.isEmpty then none
    else
      let e := readExponent intPart.2
      some (digitsToNat intPart.1, e.1, e.2)
  | [] =>
    if intPart.1.isEmpty then none else some (digitsToNat intPart.1, 0, [])

/-- Steps 2 to 4 of `parseFloat`: skip leading white space, then read the longest
prefix that is a `StrDecimalLiteral`; the number read and the unread rest, `none` when
no prefix is a literal (`parseFloat` then returns `NaN`). -/
def parseFloatPrefix (input : List Char) : Option (JSNumber × List Char) :=
  let signed := readSign (input.dropWhile isStrWhiteSpaceChar)
  if signed.2.take 8 = "Infinity".data then
    some (JSNumber.infinity signed.1, signed.2.drop 8)
  else
    match readUnsignedDecimal signed.2 with
    | some (m, e, rest) => some (JSNumber.decimal signed.1 m e, rest)
    | none => none

/-- Builtin `parseFloat` on a string; `none` is `NaN`. -/
def parseFloat (s : String) : Option JSNumber :=
  (parseFloatPrefix s.data).map Prod.fst

/-- Method `extractValue(rawValue)` of `EnergyDatabase`; the result `none` is `null`.
An object argument is converted by `ToString`: with an own property `toString` (never a
function here) the conversion throws a `TypeError`, without one it yields
`"[object Object]"`, which `parseFloat` reads as `NaN`. -/
def extractValue (rawValue : RawValue) : Except JSError (Option JSNumber) :=
  if !rawValue.isTruthy then .ok none
  else match rawValue with
    | .undefined => .ok none
    | .str s => .ok (parseFloat s)
    | .obj o => if JSObj.hasOwnProperty o "toString" then .error .typeError else .ok none

/-- A string is, as a whole, a decimal number: after leading white space the decimal
literal that `parseFloat` reads leaves nothing unread. -/
def isDecimalNumber (s : String) : Bool :=
  match parseFloatPrefix s.data with
  | some (_, rest) => rest.isEmpty
  | none => false

/-- After leading white space and an optional sign the text begins with a decimal
digit, with `.` and a decimal digit, or with `Infinity`. -/
def hasNumericStart (s : String) : Bool :=
  let signed := readSign (s.data.dropWhile isStrWhiteSpaceChar)
  signed.2.take 8 = "Infinity".data ||
    match signed.2 with
    | [] => false
    | c :: cs => c.isDigit || (c = '.' && match cs with
      | [] => false
      | d :: _ => d.isDigit)


/-! ## Category tree -/

/-- The data a category maps to: a flat section, or (for `Energiemonitor`) a map from
subcategory name to section; `nestedOver proto d` is such a map after an assignment to
`__proto__` made the section `proto` its prototype. -/
inductive CatVal where
  | flat (d : Section)
  | nested (d : JSObj Section)
  | nestedOver (proto : Section) (d : JSObj Section)
  deriving DecidableEq

/-- The object `collectEnergiemonitorData` builds: its own properties, and the section
that an assignment to `__proto__` made its prototype, if there was one. -/
structure EnergiemonitorData where
  proto : Option Section
  own : JSObj Section
  deriving DecidableEq

/-- The object built by `collectEnergiemonitorData` as the data of a category. -/
def EnergiemonitorData.toCatVal (e : EnergiemonitorData) : CatVal :=
  match e.proto with
  | none => .nested e.own
  | some proto => .nestedOver proto e.own

/-- One iteration of the loop of `collectEnergiemonitorData`: the assignment
`energiemonitorData[name] = ...` creates the own property, or for the name `__proto__`
replaces the prototype. -/
def collectEnergiemonitorData.body (energiemonitorData : EnergiemonitorData) (item : Node) :
    EnergiemonitorData :=
  let name := item.firstName
  if item.item.isSome && truthy name then
    { proto :=
        if name = some "__proto__" then some (collectSectionData (item.item.getD []))
        else energiemonitorData.proto
      own := JSObj.set energiemonitorData.own (name.getD "")
        (collectSectionData (item.item.getD [])) }
  else energiemonitorData

/-- Method `collectEnergiemonitorData(items)` of `EnergyLogger`. -/
def collectEnergiemonitorData (items : List Node) : EnergiemonitorData :=
  items.foldl collectEnergiemonitorData.body { proto := none, own := [] }

/-- One iteration of the loop of `collectCategoryData`; for the name `__proto__` the
assignment replaces the prototype of `categoryData`, which nothing reads, and creates no
own property. -/
def collectCategoryData.body (categoryData : JSObj CatVal) (item : Node) : JSObj CatVal :=
  let name := item.firstName
  if item.item.isSome && truthy name then
    if name = some "Energiemonitor" then
      JSObj.set categoryData (name.getD "")
        (collectEnergiemonitorData (item.item.getD [])).toCatVal
    else
      JSObj.set categoryData (name.getD "") (.flat (collectSectionData (item.item.getD [])))
  else categoryData

/-- Method `collectCategoryData(items)` of `EnergyLogger`. -/
def collectCategoryData (items : List Node) : JSObj CatVal :=
  items.foldl collectCategoryData.body []

/-! ### Specification side of the category tree -/

/-- A node has both a name and children. -/
def isNamedSection (n : Node) : Bool :=
  n.item.isSome && truthy n.firstName

/-- What a subcategory node of `Energiemonitor` contributes: its name with the
flattened map of its children, if it has a name and children. -/
def subcategoryEntry (n : Node) : Option (String × Section) :=
  if isNamedSection n then some (n.firstName.getD "", collectSectionData (n.item.getD []))
  else none

/-- What a top-level node contributes: nothing without a name or without children;
under `Energiemonitor` the object of its subcategories; under any other name the
flattened map of its children. -/
def categoryEntry (n : Node) : Option (String × CatVal) :=
  if isNamedSection n then
    if n.firstName.getD "" = "Energiemonitor" then
      some ("Energiemonitor", (collectEnergiemonitorData (n.item.getD [])).toCatVal)
    else some (n.firstName.getD "", .flat (collectSectionData (n.item.getD [])))
  else none

/-! ## Snapshot persistence -/

/-- The seven tables created by `initDatabase`. -/
inductive Table where
  | temperaturen
  | eingaenge
  | ausgaenge
  | abschaltungen
  | anlagenstatus
  | energiemonitor_waermemenge
  | energiemonitor_leistungsaufnahme
  deriving DecidableEq

/-- A parameter bound to an `INSERT` statement: `null`, a number, or a value passed on
as it was read from the data. -/
inductive Cell where
  | null
  | number (n : JSNumber)
  | raw (v : RawValue)
  deriving DecidableEq

/-- A result of `extractValue` as a bound parameter. -/
def Cell.ofExtracted : Option JSNumber → Cell
  | some n => .number n
  | none => .null

/-- Expression `entries[i] || null`. -/
def Cell.orNull : Option RawValue → Cell
  | some v => if v.isTruthy then .raw v else .null
  | none => .null

/-- A row: the `timestamp` column and the remaining bound columns in statement order
(the `id` column is assigned by the engine). -/
structure Row where
  timestamp : Nat
  cells : List Cell
  deriving DecidableEq

/-- Contents of the database: the rows of each table, oldest insert first. -/
abbrev Store := Table → List Row

/-- The store after one more row was inserted into `table`. -/
def Store.insert (db : Store) (table : Table) (row : Row) : Store :=
  fun t => if t = table then db t ++ [row] else db t

/-- Whether executing an `INSERT` of `row` into `table` throws in the given store. -/
abbrev InsertOracle := Store → Table → Row → Bool

/-- The oracle under which no insert fails. -/
def noInsertFails : InsertOracle := fun _ _ _ => false

/-- Call `statement.run(...)` of a prepared insert: the argument list is evaluated first
(which may throw), then the statement is executed; a statement that throws inserts
nothing.  An exception carries the store as it is when thrown. -/
def runInsert (fails : InsertOracle) (db : Store) (table : Table)
    (args : Except JSError Row) : Except (JSError × Store) Store :=
  match args with
  | .error e => .error (e, db)
  | .ok row => if fails db table row then .error (.insertFailed, db) else .ok (db.insert table row)

/-- Property read `data[key]` on the data of a category. -/
def CatVal.prop : CatVal → String → RawValue
  | .flat d, key =>
    match JSObj.get d key with
    | some (some s) => .str s
    | _ => .undefined
  | .nested d, key =>
    match JSObj.get d key with
    | some o => .obj o
    | none => .undefined
  | .nestedOver proto d, key =>
    match JSObj.get d key with
    | some o => .obj o
    | none =>
      match JSObj.get proto key with
      | some (some s) => .str s
      | _ => .undefined

/-- Property read `data[key]` on a raw value, for keys that are neither an array index
nor `length` (all keys the program reads): a string has no such property, reading from
`undefined` throws. -/
def RawValue.prop : RawValue → String → Except JSError RawValue
  | .obj o, key =>
    match JSObj.get o key with
    | some (some s) => .ok (.str s)
    | _ => .ok .undefined
  | .str _, _ => .ok .undefined
  | .undefined, _ => .error .typeError

/-- The arguments `this.extractValue(data[k])` for the keys `k`, evaluated left to
right. -/
def numericArgs (read : String → Except JSError RawValue) :
    List String → Except JSError (List Cell)
  | [] => .ok []
  | key :: keys =>
    match read key with
    | .error e => .error e
    | .ok raw =>
      match extractValue raw with
      | .error e => .error e
      | .ok v =>
        match numericArgs read keys with
        | .error e => .error e
        | .ok cells => .ok (Cell.ofExtracted v :: cells)

/-- Argument list of `insertTemperaturen.run` in `saveTemperaturen`. -/
def saveTemperaturen.args (timestamp : Nat) (data : CatVal) : Except JSError Row :=
  (numericArgs (fun k => .ok (data.prop k))
    ["Vorlauf", "Rücklauf", "Rückl.-Soll", "Heissgas", "Außentemperatur", "Mitteltemperatur",
      "Warmwasser-Ist", "Warmwasser-Soll", "Wärmequelle-Ein", "Wärmequelle-Aus",
      "Mischkreis1-Vorlauf", "Mischkreis1 VL-Soll", "Vorlauf max.", "Ansaug VD",
      "VD-Heizung", "Überhitzung"]).map fun cells => ⟨timestamp, cells⟩

/-- Method `saveTemperaturen(timestamp, data)` of `EnergyDatabase`. -/
def saveTemperaturen (fails : InsertOracle) (db : Store) (timestamp : Nat) (data : CatVal) :
    Except (JSError × Store) Store :=
  runInsert fails db .temperaturen (saveTemperaturen.args timestamp data)

/-- Argument list of `insertEingaenge.run` in `saveEingaenge`. -/
def saveEingaenge.args (timestamp : Nat) (data : CatVal) : Except JSError Row :=
  (numericArgs (fun k => .ok (data.prop k)) ["HD", "ND", "Durchfluss"]).map fun cells =>
    ⟨timestamp, (["ASD", "EVU", "HD", "MOT", "PEX"].map fun k => Cell.raw (data.prop k))
      ++ cells⟩

/-- Method `saveEingaenge(timestamp, data)` of `EnergyDatabase`. -/
def saveEingaenge (fails : InsertOracle) (db : Store) (timestamp : Nat) (data : CatVal) :
    Except (JSError × Store) Store :=
  runInsert fails db .eingaenge (saveEingaenge.args timestamp data)

/-- Argument list of `insertAusgaenge.run` in `saveAusgaenge`. -/
def saveAusgaenge.args (timestamp : Nat) (data : CatVal) : Except JSError Row :=
  (numericArgs (fun k => .ok (data.prop k))
    ["Freq. Sollwert", "Freq. aktuell", "Ventil.-BOSUP", "HUP"]).map fun cells =>
    ⟨timestamp, (["BUP", "FUP 1", "HUP", "Mischer 1 Auf", "Mischer 1 Zu", "Ventil.-BOSUP",
      "Verdichter", "ZIP", "ZUP", "ZWE 1", "ZWE 2 - SST", "VD-Heizung"].map
        fun k => Cell.raw (data.prop k)) ++ cells⟩

/-- Method `saveAusgaenge(timestamp, data)` of `EnergyDatabase`. -/
def saveAusgaenge (fails : InsertOracle) (db : Store) (timestamp : Nat) (data : CatVal) :
    Except (JSError × Store) Store :=
  runInsert fails db .ausgaenge (saveAusgaenge.args timestamp data)

/-- Array `Object.values(data)` for the data of a category. -/
def CatVal.values : CatVal → List RawValue
  | .flat d => (JSObj.values d).map RawValue.ofOption
  | .nested d => (JSObj.values d).map RawValue.obj
  | .nestedOver _ d => (JSObj.values d).map RawValue.obj

/-- Argument list of `insertAbschaltungen.run` in `saveAbschaltungen`. -/
def saveAbschaltungen.args (timestamp : Nat) (data : CatVal) : Except JSError Row :=
  let entries := data.values
  .ok ⟨timestamp, [Cell.orNull (entries.get? 0), Cell.orNull (entries.get? 1),
    Cell.orNull (entries.get? 2), Cell.orNull (entries.get? 3), Cell.orNull (entries.get? 4)]⟩

/-- Method `saveAbschaltungen(timestamp, data)` of `EnergyDatabase`. -/
def saveAbschaltungen (fails : InsertOracle) (db : Store) (timestamp : Nat) (data : CatVal) :
    Except (JSError × Store) Store :=
  runInsert fails db .abschaltungen (saveAbschaltungen.args timestamp data)

/-- Argument list of `insertAnlagenstatus.run` in `saveAnlagenstatus`. -/
def saveAnlagenstatus.args (timestamp : Nat) (data : CatVal) : Except JSError Row :=
  (numericArgs (fun k => .ok (data.prop k))
    ["Bivalenz Stufe", "Heizleistung Ist", "Leistungsaufnahme"]).map
      fun cells => ⟨timestamp, cells⟩

/-- Method `saveAnlagenstatus(timestamp, data)` of `EnergyDatabase`. -/
def saveAnlagenstatus (fails : InsertOracle) (db : Store) (timestamp : Nat) (data : CatVal) :
    Except (JSError × Store) Store :=
  runInsert fails db .anlagenstatus (saveAnlagenstatus.args timestamp data)

/-- Argument list of the insert in `saveEnergiemonitorWaermemenge` and in
`saveEnergiemonitorLeistungsaufnahme` (the two read the same four fields). -/
def saveEnergiemonitor.args (timestamp : Nat) (data : RawValue) : Except JSError Row :=
  (numericArgs data.prop ["Heizung", "Warmwasser", "Kühlung", "Gesamt"]).map
    fun cells => ⟨timestamp, cells⟩

/-- Method `saveEnergiemonitorWaermemenge(timestamp, data)` of `EnergyDatabase`. -/
def saveEnergiemonitorWaermemenge (fails : InsertOracle) (db : Store) (timestamp : Nat)
    (data : RawValue) : Except (JSError × Store) Store :=
  runInsert fails db .energiemonitor_waermemenge (saveEnergiemonitor.args timestamp data)

/-- Method `saveEnergiemonitorLeistungsaufnahme(timestamp, data)` of `EnergyDatabase`. -/
def saveEnergiemonitorLeistungsaufnahme (fails : InsertOracle) (db : Store) (timestamp : Nat)
    (data : RawValue) : Except (JSError × Store) Store :=
  runInsert fails db .energiemonitor_leistungsaufnahme (saveEnergiemonitor.args timestamp data)

/-- A successful save counted: the new store with `savedCategories++`. -/
def counted (savedCategories : Nat) (saved : Except (JSError × Store) Store) :
    Except (JSError × Store) (Store × Nat) :=
  saved.map fun db => (db, savedCategories + 1)

/-- Body of the `switch (category)` in `saveSnapshotData`, on the state
`(store, savedCategories)`. -/
def saveSnapshotData.switch (fails : InsertOracle) (timestamp : Nat) (state : Store × Nat)
    (category : String) (data : CatVal) : Except (JSError × Store) (Store × Nat) :=
  match category with
  | "Temperaturen" => counted state.2 (saveTemperaturen fails state.1 timestamp data)
  | "Eingänge" => counted state.2 (saveEingaenge fails state.1 timestamp data)
  | "Ausgänge" => counted state.2 (saveAusgaenge fails state.1 timestamp data)
  | "Abschaltungen" => counted state.2 (saveAbschaltungen fails state.1 timestamp data)
  | "Anlagenstatus" => counted state.2 (saveAnlagenstatus fails state.1 timestamp data)
  | "Energiemonitor" =>
    let first :=
      if (data.prop "Wärmemenge").isTruthy then
        counted state.2
          (saveEnergiemonitorWaermemenge fails state.1 timestamp (data.prop "Wärmemenge"))
      else .ok state
    match first with
    | .error e => .error e
    | .ok state1 =>
      if (data.prop "Leistungsaufnahme").isTruthy then
        counted state1.2
          (saveEnergiemonitorLeistungsaufnahme fails state1.1 timestamp
            (data.prop "Leistungsaufnahme"))
      else .ok state1
  | _ => .ok state

/-- Loop `for (const [category, data] of Object.entries(categoryData))` of
`saveSnapshotData`; it ends at the first exception. -/
def saveSnapshotData.loop (fails : InsertOracle) (timestamp : Nat) :
    List (String × CatVal) → Store × Nat → Except (JSError × Store) (Store × Nat)
  | [], state => .ok state
  | (category, data) :: rest, state =>
    match saveSnapshotData.switch fails timestamp state category data with
    | .error e => .error e
    | .ok state1 => saveSnapshotData.loop fails timestamp rest state1

/-- The object `saveSnapshotData` returns. -/
structure SaveResult where
  snapshots : Nat
  categories : Nat
  deriving DecidableEq

/-- Method `saveSnapshotData(categoryData)` of `EnergyDatabase`, with the insert oracle,
the store before the call and `Date.now()`; it returns the result object and the store
after the call. -/
def saveSnapshotData (fails : InsertOracle) (db : Store) (now : Nat)
    (categoryData : JSObj CatVal) : SaveResult × Store :=
  let timestamp := now / 1000
  match saveSnapshotData.loop fails timestamp (JSObj.ownEntries categoryData) (db, 0) with
  | .error (_, db1) => ({ snapshots := 0, categories := 0 }, db1)
  | .ok (db1, savedCategories) =>
    ({ snapshots := if savedCategories > 0 then 1 else 0, categories := savedCategories }, db1)

/-- The tables in the order `deleteOldData` visits them. -/
def tables : List Table :=
  [.temperaturen, .eingaenge, .ausgaenge, .abschaltungen, .anlagenstatus,
    .energiemonitor_waermemenge, .energiemonitor_leistungsaufnahme]

/-- Statement `DELETE FROM table WHERE timestamp < ?` run with `cutoffTimestamp`: the
store afterwards and `result.changes`. -/
def deleteWhereOlder (db : Store) (table : Table) (cutoffTimestamp : Int) : Store × Nat :=
  (fun t => if t = table then (db t).filter (fun r => !decide ((r.timestamp : Int) < cutoffTimestamp))
      else db t,
    ((db table).filter fun r => decide ((r.timestamp : Int) < cutoffTimestamp)).length)

/-- Method `deleteOldData(yearsToKeep = 3)` of `EnergyDatabase`, with the store before the
call and `Date.now()`; `none` is an omitted argument.  It returns `totalDeleted` and the
store after the call. -/
def deleteOldData (db : Store) (now : Nat) (yearsToKeep : Option Int) : Nat × Store :=
  let years := yearsToKeep.getD 3
  let cutoffTimestamp : Int := ((now / 1000 : Nat) : Int) - years * 365 * 24 * 60 * 60
  let final := tables.foldl
    (fun (state : Store × Nat) table =>
      let result := deleteWhereOlder state.1 table cutoffTimestamp
      (result.1, state.2 + result.2))
    (db, 0)
  (final.2, final.1)

/-- The retention horizon in seconds for a number of years to keep. -/
def horizonSeconds (yearsToKeep : Int) : Int :=
  yearsToKeep * 365 * 24 * 60 * 60

/-- The names `saveSnapshotData` has a `case` for. -/
def knownCategories : List String :=
  ["Temperaturen", "Eingänge", "Ausgänge", "Abschaltungen", "Anlagenstatus", "Energiemonitor"]


/-- Number of rows `saveSnapshotData` inserts for one entry of the category map when
nothing throws: one for each of the five flat categories, one for each of the
subcategories `Wärmemenge` and `Leistungsaufnahme` that `Energiemonitor` holds with a
truthy value, none for any other name. -/
def categoriesWritten (category : String) (data : CatVal) : Nat :=
  if category = "Energiemonitor" then
    (if (data.prop "Wärmemenge").isTruthy then 1 else 0)
      + (if (data.prop "Leistungsaufnahme").isTruthy then 1 else 0)
  else if category ∈ knownCategories then 1
  else 0

/-- The categories whose save method coerces fields with `extractValue`. -/
def coercedCategories : List String :=
  ["Temperaturen", "Eingänge", "Ausgänge", "Anlagenstatus"]

/-- The data of an entry is a flat section (as `collectCategoryData` builds it) if its
category is one whose fields are coerced. -/
def coercedIsFlat (category : String) (data : CatVal) : Prop :=
  category ∈ coercedCategories → ∃ d, data = CatVal.flat d

/-! ### Specification side of a save: the plan of insert statements -/

/-- The insert statements `saveSnapshotData` runs for one entry of the category map, in
order, each with the table and its argument list. -/
def insertPlan.entry (timestamp : Nat) (category : String) (data : CatVal) :
    List (Table × Except JSError Row) :=
  match category with
  | "Temperaturen" => [(.temperaturen, saveTemperaturen.args timestamp data)]
  | "Eingänge" => [(.eingaenge, saveEingaenge.args timestamp data)]
  | "Ausgänge" => [(.ausgaenge, saveAusgaenge.args timestamp data)]
  | "Abschaltungen" => [(.abschaltungen, saveAbschaltungen.args timestamp data)]
  | "Anlagenstatus" => [(.anlagenstatus, saveAnlagenstatus.args timestamp data)]
  | "Energiemonitor" =>
    (if (data.prop "Wärmemenge").isTruthy then
      [(Table.energiemonitor_waermemenge,
        saveEnergiemonitor.args timestamp (data.prop "Wärmemenge"))]
    else [])
    ++ (if (data.prop "Leistungsaufnahme").isTruthy then
      [(Table.energiemonitor_leistungsaufnahme,
        saveEnergiemonitor.args timestamp (data.prop "Leistungsaufnahme"))]
    else [])
  | _ => []

/-- The insert statements a call of `saveSnapshotData` runs if none throws, in order. -/
def insertPlan (timestamp : Nat) (entries : List (String × CatVal)) :
    List (Table × Except JSError Row) :=
  entries.flatMap fun p => insertPlan.entry timestamp p.1 p.2

/-- The store after the given rows were inserted, in order. -/
def insertAll (db : Store) (rows : List (Table × Row)) : Store :=
  rows.foldl (fun acc p => acc.insert p.1 p.2) db

/-- Statements whose argument lists evaluated to the given rows. -/
def executed (rows : List (Table × Row)) : List (Table × Except JSError Row) :=
  rows.map fun p => (p.1, Except.ok p.2)

/-- A statement throws in a store: its argument list throws, or the engine rejects the
insert. -/
def throwsIn (fails : InsertOracle) (db : Store) (stmt : Table × Except JSError Row) : Prop :=
  match stmt.2 with
  | .error _ => True
  | .ok row => fails db stmt.1 row = true

/-- Running a plan of insert statements from a store and a count, up to the first
statement that throws. -/
def runPlan (fails : InsertOracle) :
    List (Table × Except JSError Row) → Store × Nat → Except (JSError × Store) (Store × Nat)
  | [], state => .ok state
  | stmt :: rest, state =>
    match runInsert fails state.1 stmt.1 stmt.2 with
    | .error e => .error e
    | .ok db1 => runPlan fails rest (db1, state.2 + 1)


/-- Each of the given inserts is accepted by the engine when they are run in order from
the given store. -/
def succeedIn (fails : InsertOracle) : Store → List (Table × Row) → Bool
  | _, [] => true
  | db, p :: rest => !fails db p.1 p.2 && succeedIn fails (db.insert p.1 p.2) rest


/-! ## Session controller -/

/-- The part of `config.json` the controller reads: `heatpump.import_values` and
`settings?.update_interval`. -/
structure Config where
  importValues : JSObj FilterConfig
  updateInterval : Option Nat

/-- The value of `totalReadingsSaved`: a number, or the string that `+=` with an object
operand makes of it. -/
inductive Counter where
  | number (n : Nat)
  | text (s : String)
  deriving DecidableEq

/-- Statement `total += savedCount` for the object `saveSnapshotData` returns: the object
converts to the string `[object Object]`, so `+` concatenates. -/
def Counter.addObject : Counter → Counter
  | .number n => .text (toString n ++ "[object Object]")
  | .text s => .text (s ++ "[object Object]")

/-- Comparison `savedCount > 0` for the object `saveSnapshotData` returns: the object
converts to the number `NaN`, and `NaN > 0` is false. -/
def SaveResult.gtZero (_ : SaveResult) : Bool := false

/-- The fields of an `EnergyLogger` after `connect()`, with the database contents as
`db`, the commands passed to `ws.send` so far as `sent` (oldest first), and whether the
interval timer behind the handle `updateInterval` is still armed as `timerActive`. -/
structure State where
  db : Store
  requestedInformationen : Bool
  informationenId : Option String
  updateInterval : Option Nat
  timerActive : Bool
  updateSeconds : Nat
  isConnected : Bool
  lastSaveTime : Nat
  totalReadingsSaved : Counter
  sent : List String

/-- Constructor of `EnergyLogger` followed by `connect()`, over a database with the
given contents. -/
def State.fresh (config : Config) (db : Store) : State :=
  { db := db
    requestedInformationen := false
    informationenId := none
    updateInterval := none
    timerActive := false
    updateSeconds := match config.updateInterval with
      | some n => if n = 0 then 5 else n
      | none => 5
    isConnected := false
    lastSaveTime := 0
    totalReadingsSaved := .number 0
    sent := [] }

/-- A parsed message `result`: its `Content` and `Navigation` roots, `none` when absent
or falsy. -/
structure Message where
  Content : Option Node
  Navigation : Option Node

/-- Method `filterSections(items)` of `EnergyLogger`; the name `undefined` of an unnamed
node is looked up as the key `"undefined"`. -/
def filterSections (config : Config) (items : List Node) : List Node :=
  items.filter fun item =>
    JSObj.hasOwnProperty config.importValues (item.firstName.getD "undefined")

/-- The local `categoryData` of `handleInformationenContent`: the argument it passes to
`saveSnapshotData`. -/
def handleInformationenContent.categoryData (config : Config) (items : List Node) :
    JSObj CatVal :=
  collectCategoryData (filterSections config items)

/-- Method `handleInformationenContent(items)` of `EnergyLogger`. -/
def handleInformationenContent (config : Config) (fails : InsertOracle) (now : Nat)
    (s : State) (items : List Node) : State :=
  let categoryData := handleInformationenContent.categoryData config items
  let saved := saveSnapshotData fails s.db now categoryData
  let savedCount := saved.1
  if savedCount.gtZero then
    { s with
      db := saved.2
      totalReadingsSaved := s.totalReadingsSaved.addObject
      lastSaveTime := if now - s.lastSaveTime > 30000 then now else s.lastSaveTime }
  else { s with db := saved.2 }

/-- Method `setupInformationenRequest(navigationItems)` of `EnergyLogger`. -/
def setupInformationenRequest (s : State) : List Node → State
  | [] => s
  | item :: rest =>
    if item.firstName = some "Informationen" && truthy item.id then
      { s with
        informationenId := item.id
        sent := s.sent ++ ["GET;" ++ item.id.getD ""]
        requestedInformationen := true
        updateInterval := some (s.updateSeconds * 1000)
        timerActive := true }
    else setupInformationenRequest s rest

/-- First statement of `processMessage`: the `Content` payload, if any, is handled. -/
def processMessage.content (config : Config) (fails : InsertOracle) (now : Nat) (s : State)
    (result : Message) : State :=
  match result.Content with
  | some content =>
    match content.item with
    | some items => handleInformationenContent config fails now s items
    | none => handleInformationenContent config fails now s [content]
  | none => s

/-- Second statement of `processMessage`: the first-time setup from a `Navigation`
payload. -/
def processMessage.navigation (s : State) (result : Message) : State :=
  if !s.requestedInformationen then
    match result.Navigation with
    | some navigation =>
      match navigation.item with
      | some items => setupInformationenRequest s items
      | none => s
    | none => s
  else s

/-- Method `processMessage(result)` of `EnergyLogger`. -/
def processMessage (config : Config) (fails : InsertOracle) (now : Nat) (s : State)
    (result : Message) : State :=
  processMessage.navigation (processMessage.content config fails now s result) result

/-- Method `onOpen()` of `EnergyLogger`. -/
def onOpen (s : State) : State :=
  { s with sent := s.sent ++ ["LOGIN;0"], isConnected := true }

/-- The callback of `setInterval` in `setupInformationenRequest`. -/
def onInterval (s : State) : State :=
  if s.isConnected then { s with sent := s.sent ++ ["GET;" ++ s.informationenId.getD ""] }
  else s

/-- Method `onClose()` of `EnergyLogger`. -/
def onClose (s : State) : State :=
  if s.updateInterval.isSome then { s with isConnected := false, timerActive := false }
  else { s with isConnected := false }

/-- Method `onError(err)` of `EnergyLogger`. -/
def onError (s : State) : State :=
  { s with isConnected := false }

/-- What the event loop delivers to the controller. -/
inductive Event where
  | opened
  | message (result : Message) (now : Nat) (fails : InsertOracle)
  | interval
  | closed
  | failed

/-- The controller's reaction to one event; the interval callback runs only while the
timer is armed. -/
def step (config : Config) (s : State) : Event → State
  | .opened => onOpen s
  | .message result now fails => processMessage config fails now s result
  | .interval => if s.timerActive then onInterval s else s
  | .closed => onClose s
  | .failed => onError s

/-- The controller's state after a sequence of events. -/
def run (config : Config) (s : State) (events : List Event) : State :=
  events.foldl (step config) s

/-- A field name is filtered out by a rule: not in `include` when that is present,
otherwise in `exclude` when that is present. -/
def filteredOut (rule : FilterConfig) (field : String) : Bool :=
  match rule.includeRule, rule.excludeRule with
  | some inc, _ => !inc.contains field
  | none, some exc => exc.contains field
  | none, none => false


/-- The controller is in the state `Subscribed`: connected, handshake done, and the
recurring poll timer armed. -/
def isSubscribed (s : State) : Bool :=
  s.isConnected && s.requestedInformationen && s.updateInterval.isSome && s.timerActive

/-- Method `shutdown()` of `EnergyLogger`: the state it leaves. -/
def shutdown (s : State) : State :=
  if s.updateInterval.isSome then { s with isConnected := false, timerActive := false }
  else { s with isConnected := false }

/-- The total that `shutdown()` logs as `Total readings saved`. -/
def shutdown.reportedTotal (s : State) : Counter :=
  s.totalReadingsSaved

/-- The state `Subscribed` a fresh controller reaches by an open notification and a
Navigation payload with the entry `Informationen` of identifier 12. -/
def subscribedExample : State :=
  run ⟨[], none⟩ (State.fresh ⟨[], none⟩ (fun _ => []))
    [Event.opened,
      Event.message ⟨none, some (Node.mk none none
        (some [Node.mk (some ["Informationen"]) none none (some "12")]) none)⟩ 0 noInsertFails]


/-- The entries of a category map whose key is a known category name. -/
def knownEntries (categoryData : JSObj CatVal) : List (String × CatVal) :=
  categoryData.filter fun p => decide (p.1 ∈ knownCategories)


/-- What slot `i` (from 0) of the `abschaltungen` row holds for a field map: the value of
the field at position `i` in creation order if it is a non-empty string, `null` if that
value is empty or `undefined` or if there is no such field. -/
def abschaltungSlot (d : Section) (i : Nat) : Cell :=
  match d.get? i with
  | some (_, some s) => if s = "" then .null else .raw (.str s)
  | _ => .null


mutual
/-- Depth-first, left-to-right walk of a node list as the specification words it: a node
with a name and a value list is recorded with its first value, and, independently, a
node with a name and children is descended into. -/
def specWalk : List Node → List (String × Option String)
  | [] => []
  | n :: rest => specWalkNode n ++ specWalk rest
/-- The part of the specification's walk contributed by one node. -/
def specWalkNode : Node → List (String × Option String)
  | .mk nm value item _ =>
    let name : Option String := match nm with
      | some names => names.head?
      | none => none
    if truthy name then
      (if value.isSome then [(name.getD "", (value.getD []).head?)] else [])
        ++ (match item with
          | some children => specWalk children
          | none => [])
    else []
end

mutual
/-- The invariant of the data model: no node, at any depth, carries both a value list
and children. -/
def leafOrSection : List Node → Bool
  | [] => true
  | n :: rest => leafOrSectionNode n && leafOrSection rest
/-- The invariant of the data model for one node and all nodes beneath it. -/
def leafOrSectionNode : Node → Bool
  | .mk _ value item _ =>
    match item with
    | some children => !value.isSome && leafOrSection children
    | none => true
end

/-! ## Theorems -/

namespace JSObj

variable {V : Type}

theorem get_defineOwn (o : JSObj V) (k key : String) (v : V) :
    get (defineOwn o k v) key = if k = key then some v else get o key := by
  induction o with
  | nil => simp [defineOwn, get]
  | cons p rest ih =>
    obtain ⟨k0, w⟩ := p
    by_cases h : k0 = k
    · subst h
      by_cases h2 : k0 = key <;> simp [defineOwn, get, h2]
    · by_cases h2 : k0 = key
      · subst h2
        have h3 : ¬ k = k0 := fun e => h e.symm
        simp [defineOwn, get, h, h3]
      · simp [defineOwn, get, h, h2, ih]

theorem get_set (o : JSObj V) (k key : String) (v : V) (hkey : key ≠ "__proto__") :
    get (set o k v) key = if k = key then some v else get o key := by
  unfold set
  by_cases hk : k = "__proto__"
  · have hne : ¬ k = key := fun e => hkey (e ▸ hk)
    rw [if_pos hk, if_neg hne]
  · rw [if_neg hk, get_defineOwn]

theorem get_set_proto (o : JSObj V) (k : String) (v : V) :
    get (set o k v) "__proto__" = get o "__proto__" := by
  unfold set
  by_cases hk : k = "__proto__"
  · rw [if_pos hk]
  · rw [if_neg hk, get_defineOwn, if_neg hk]

theorem map_fst_defineOwn (o : JSObj V) (k : String) (v : V) :
    (defineOwn o k v).map Prod.fst =
      if k ∈ o.map Prod.fst then o.map Prod.fst else o.map Prod.fst ++ [k] := by
  induction o with
  | nil => simp [defineOwn]
  | cons p rest ih =>
    obtain ⟨k0, w⟩ := p
    by_cases h : k0 = k
    · subst h; simp [defineOwn]
    · have h3 : ¬ k = k0 := fun e => h e.symm
      by_cases h2 : k ∈ rest.map Prod.fst
      · simp only [defineOwn, h, if_false, List.map_cons, ih, h2, if_true, List.mem_cons,
          or_true]
      · simp only [defineOwn, h, if_false, List.map_cons, ih, h2, List.mem_cons, h3, or_self,
          List.cons_append]

theorem NodupKeys.set {o : JSObj V} (h : NodupKeys o) (k : String) (v : V) :
    NodupKeys (JSObj.set o k v) := by
  unfold JSObj.set
  split
  · exact h
  · unfold NodupKeys at *
    rw [map_fst_defineOwn]
    split
    · exact h
    · rename_i hk
      rw [List.nodup_append]
      refine ⟨h, List.nodup_singleton k, ?_⟩
      intro a ha hb
      simp only [List.mem_singleton] at hb
      subst hb
      exact hk ha

theorem nodupKeys_foldl_set (l : List (String × V)) (t : JSObj V) (h : NodupKeys t) :
    NodupKeys (l.foldl (fun acc p => JSObj.set acc p.1 p.2) t) := by
  induction l generalizing t with
  | nil => exact h
  | cons p rest ih => exact ih _ (h.set p.1 p.2)

theorem NodupKeys.assign {t : JSObj V} (h : NodupKeys t) (s : JSObj V) :
    NodupKeys (JSObj.assign t s) :=
  nodupKeys_foldl_set _ t h

end JSObj

theorem lastWrite_nil {V : Type} (key : String) :
    lastWrite ([] : List (String × V)) key = none := rfl

theorem lastWrite_singleton {V : Type} (k key : String) (v : V) :
    lastWrite [(k, v)] key = if k = key then some v else none := by
  by_cases h : k = key <;> simp [lastWrite, List.filter, h]

theorem lastWrite_append {V : Type} (a b : List (String × V)) (key : String) :
    lastWrite (a ++ b) key = (lastWrite b key).or (lastWrite a key) := by
  unfold lastWrite
  rw [List.filter_append, List.getLast?_append]
  cases (List.filter (fun p => decide (p.1 = key)) b).getLast? <;> simp

theorem lastWrite_cons {V : Type} (p : String × V) (rest : List (String × V))
    (key : String) :
    lastWrite (p :: rest) key =
      (lastWrite rest key).or (if p.1 = key then some p.2 else none) := by
  have h := lastWrite_append [p] rest key
  rw [List.singleton_append] at h
  rw [h, show [p] = [(p.1, p.2)] from rfl, lastWrite_singleton]

namespace JSObj

variable {V : Type}

theorem get_foldl_set (l : List (String × V)) (t : JSObj V) (key : String)
    (hkey : key ≠ "__proto__") :
    get (l.foldl (fun acc p => set acc p.1 p.2) t) key =
      (lastWrite l key).or (get t key) := by
  induction l generalizing t with
  | nil => simp [lastWrite_nil]
  | cons p rest ih =>
    rw [List.foldl_cons, ih, get_set _ _ _ _ hkey, lastWrite_cons]
    cases lastWrite rest key <;> by_cases h : p.1 = key <;> simp [h]

theorem get_foldl_set_proto (l : List (String × V)) (t : JSObj V) :
    get (l.foldl (fun acc p => set acc p.1 p.2) t) "__proto__" = get t "__proto__" := by
  induction l generalizing t with
  | nil => rfl
  | cons p rest ih => rw [List.foldl_cons, ih, get_set_proto]

theorem get_eq_some_iff {o : JSObj V} (h : NodupKeys o) (key : String) (v : V) :
    get o key = some v ↔ (key, v) ∈ o := by
  induction o with
  | nil => simp [get]
  | cons p rest ih =>
    obtain ⟨k0, w⟩ := p
    have hn : k0 ∉ rest.map Prod.fst ∧ NodupKeys rest := by
      simpa [NodupKeys] using h
    by_cases hk : k0 = key
    · subst hk
      simp only [get, if_true, Option.some.injEq, List.mem_cons, Prod.mk.injEq, true_and]
      constructor
      · intro e; exact Or.inl e.symm
      · rintro (e | e)
        · exact e.symm
        · exact absurd (List.mem_map_of_mem Prod.fst e) hn.1
    · have hk2 : ¬ key = k0 := fun e => hk e.symm
      simp only [get, hk, if_false, ih hn.2, List.mem_cons, Prod.mk.injEq, hk2, false_and,
        false_or]

theorem lastWrite_eq_some_iff {o : JSObj V} (h : NodupKeys o) (key : String) (v : V) :
    lastWrite o key = some v ↔ (key, v) ∈ o := by
  induction o generalizing v with
  | nil => simp [lastWrite_nil]
  | cons p rest ih =>
    obtain ⟨k0, w⟩ := p
    have hn : k0 ∉ rest.map Prod.fst ∧ NodupKeys rest := by
      simpa [NodupKeys] using h
    rw [lastWrite_cons, Option.or_eq_some, ih hn.2 v]
    by_cases hk : k0 = key
    · subst hk
      have hnot : ∀ x, (k0, x) ∉ rest := fun x e =>
        hn.1 (List.mem_map_of_mem Prod.fst e)
      have hnone : lastWrite rest k0 = none := by
        cases hl : lastWrite rest k0 with
        | none => rfl
        | some x => exact absurd ((ih hn.2 x).mp hl) (hnot x)
      simp only [if_true, Option.some.injEq, hnone, true_and, List.mem_cons,
        Prod.mk.injEq, hnot v, or_false, false_or]
      exact eq_comm
    · have hk2 : ¬ key = k0 := fun e => hk e.symm
      simp [hk, hk2]

theorem ownEntries_perm (o : JSObj V) : (ownEntries o).Perm o := by
  unfold ownEntries
  refine (List.Perm.append_right _ (List.perm_insertionSort _ _)).trans ?_
  exact List.filter_append_perm _ o

theorem lastWrite_of_perm {o l : JSObj V} (h : NodupKeys o) (hp : l.Perm o)
    (key : String) : lastWrite l key = get o key := by
  have hl : NodupKeys l := (hp.map Prod.fst).nodup_iff.mpr h
  apply Option.ext
  intro v
  rw [Option.mem_def, Option.mem_def, lastWrite_eq_some_iff hl, get_eq_some_iff h]
  exact hp.mem_iff

theorem get_assign (t : JSObj V) {s : JSObj V} (h : NodupKeys s) (key : String)
    (hkey : key ≠ "__proto__") :
    get (assign t s) key = (get s key).or (get t key) := by
  unfold assign
  rw [get_foldl_set _ _ _ hkey, lastWrite_of_perm h (ownEntries_perm s)]

theorem get_assign_proto (t s : JSObj V) :
    get (assign t s) "__proto__" = get t "__proto__" := by
  unfold assign
  exact get_foldl_set_proto _ t

end JSObj

mutual
theorem collectSectionData.loop_spec :
    ∀ (items : List Node) (acc : Section), JSObj.NodupKeys acc →
      JSObj.NodupKeys (collectSectionData.loop items acc) ∧
      ∀ key, key ≠ "__proto__" → JSObj.get (collectSectionData.loop items acc) key =
        (lastWrite (leafWalk items) key).or (JSObj.get acc key)
  | [], acc, h => by
    refine ⟨by simpa [collectSectionData.loop] using h, fun key _ => ?_⟩
    simp [collectSectionData.loop, leafWalk, lastWrite_nil]
  | item :: rest, acc, h => by
    have hb := collectSectionData.body_spec item acc h
    have hr := collectSectionData.loop_spec rest _ hb.1
    refine ⟨by simpa [collectSectionData.loop] using hr.1, fun key hkey => ?_⟩
    rw [collectSectionData.loop, hr.2 key hkey, hb.2 key hkey, leafWalk, lastWrite_append]
    cases lastWrite (leafWalk rest) key <;> simp
theorem collectSectionData.body_spec :
    ∀ (n : Node) (acc : Section), JSObj.NodupKeys acc →
      JSObj.NodupKeys (collectSectionData.body n acc) ∧
      ∀ key, key ≠ "__proto__" → JSObj.get (collectSectionData.body n acc) key =
        (lastWrite (leafWalkNode n) key).or (JSObj.get acc key)
  | .mk nm value none ident, acc, h => by
    simp only [collectSectionData.body, leafWalkNode]
    split
    · refine ⟨h.set _ _, fun key hkey => ?_⟩
      rw [JSObj.get_set _ _ _ _ hkey, lastWrite_singleton]
      split <;> simp
    · exact ⟨h, fun key _ => by simp [lastWrite_nil]⟩
  | .mk nm value (some children) ident, acc, h => by
    have hc := collectSectionData.loop_spec children [] List.nodup_nil
    simp only [collectSectionData.body, leafWalkNode]
    split
    · refine ⟨h.set _ _, fun key hkey => ?_⟩
      rw [JSObj.get_set _ _ _ _ hkey, lastWrite_singleton]
      split <;> simp
    · split
      · refine ⟨h.assign _, fun key hkey => ?_⟩
        rw [JSObj.get_assign _ hc.1 key hkey, hc.2 key hkey]
        simp [JSObj.get]
      · exact ⟨h, fun key _ => by simp [lastWrite_nil]⟩
end

theorem get_collectSectionData (items : List Node) (key : String)
    (hkey : key ≠ "__proto__") :
    JSObj.get (collectSectionData items) key = lastWrite (leafWalk items) key := by
  have h := (collectSectionData.loop_spec items [] List.nodup_nil).2 key hkey
  simpa [collectSectionData, JSObj.get] using h

theorem lastWrite_isSome_iff {V : Type} (writes : List (String × V)) (key : String) :
    (lastWrite writes key).isSome = true ↔ ∃ v, (key, v) ∈ writes := by
  rw [lastWrite, show ∀ o : Option (String × V),
    (o.map Prod.snd).isSome = o.isSome from fun o => by cases o <;> rfl,
    List.getLast?_isSome]
  constructor
  · intro h
    obtain ⟨p, hp⟩ := List.exists_mem_of_ne_nil _ h
    rw [List.mem_filter] at hp
    refine ⟨p.2, ?_⟩
    have e : p.1 = key := by simpa using hp.2
    rw [← e]
    exact hp.1
  · rintro ⟨v, hv⟩ hnil
    have : (key, v) ∈ List.filter (fun p => decide (p.1 = key)) writes := by
      rw [List.mem_filter]
      exact ⟨hv, by simp⟩
    rw [hnil] at this
    exact absurd this (List.not_mem_nil _)

mutual
theorem leafWalk_eq_specWalk :
    ∀ items : List Node, leafOrSection items = true → leafWalk items = specWalk items
  | [], _ => by simp only [leafWalk, specWalk]
  | n :: rest, h => by
    have h1 : leafOrSectionNode n = true ∧ leafOrSection rest = true := by
      simpa [leafOrSection] using h
    rw [leafWalk, specWalk, leafWalkNode_eq_specWalkNode n h1.1,
      leafWalk_eq_specWalk rest h1.2]
theorem leafWalkNode_eq_specWalkNode :
    ∀ n : Node, leafOrSectionNode n = true → leafWalkNode n = specWalkNode n
  | .mk nm value none ident, _ => by
    simp only [leafWalkNode, specWalkNode, List.append_nil]
    by_cases hv : value.isSome = true <;>
      by_cases ht : truthy (match nm with
        | some names => names.head?
        | none => none) = true <;> simp [hv, ht]
  | .mk nm value (some children) ident, h => by
    have h1 : value.isSome = false ∧ leafOrSection children = true := by
      simpa [leafOrSectionNode] using h
    simp only [leafWalkNode, specWalkNode, h1.1, Bool.false_and, Bool.false_eq_true,
      if_false, List.nil_append, leafWalk_eq_specWalk children h1.2]
end

/-- C1, as the code has it: for every list of nodes and every key other than
`__proto__`, the map returned by `collectSectionData` holds at the key the first value
of the last leaf of that name in the depth-first, left-to-right walk in which every
named node with a value list is a leaf and only named nodes with children and no value
list are descended into (last write wins), and the key is present exactly when such a
leaf is reached; when no node carries both a value list and children this walk is the
one of the claim, which descends through every named node with children; for children
A (leaf x = 1) then B (leaf x = 2) the map has x = 2, whether A and B are the leaves
themselves or sections holding them. -/
theorem collectSectionData_last_write_wins (items : List Node) (key : String)
    (hkey : key ≠ "__proto__") :
    JSObj.get (collectSectionData items) key = lastWrite (leafWalk items) key ∧
    (JSObj.hasOwnProperty (collectSectionData items) key = true ↔
      ∃ v, (key, v) ∈ leafWalk items) ∧
    (leafOrSection items = true →
      JSObj.get (collectSectionData items) key = lastWrite (specWalk items) key ∧
      (JSObj.hasOwnProperty (collectSectionData items) key = true ↔
        ∃ v, (key, v) ∈ specWalk items)) ∧
    JSObj.get (collectSectionData
      [Node.mk (some ["x"]) (some ["1"]) none none,
        Node.mk (some ["x"]) (some ["2"]) none none]) "x" = some (some "2") ∧
    JSObj.get (collectSectionData
      [Node.mk (some ["A"]) none
          (some [Node.mk (some ["x"]) (some ["1"]) none none]) none,
        Node.mk (some ["B"]) none
          (some [Node.mk (some ["x"]) (some ["2"]) none none]) none]) "x"
      = some (some "2") := by
  have main := get_collectSectionData items key hkey
  have hown : JSObj.hasOwnProperty (collectSectionData items) key = true ↔
      ∃ v, (key, v) ∈ leafWalk items := by
    unfold JSObj.hasOwnProperty
    rw [main, lastWrite_isSome_iff]
  refine ⟨main, hown, fun hvalid => ?_, by decide, by decide⟩
  rw [← leafWalk_eq_specWalk items hvalid]
  exact ⟨main, hown⟩

/-- Witness for C1 as amended: two sections A and B, each holding a leaf `x`, and a
further leaf `y`. -/
theorem collectSectionData_last_write_wins_witness :
    JSObj.get (collectSectionData
      [Node.mk (some ["A"]) none
          (some [Node.mk (some ["x"]) (some ["1"]) none none]) none,
        Node.mk (some ["B"]) none
          (some [Node.mk (some ["x"]) (some ["2"]) none none,
            Node.mk (some ["y"]) (some ["3"]) none none]) none]) "x"
      = lastWrite (specWalk
        [Node.mk (some ["A"]) none
            (some [Node.mk (some ["x"]) (some ["1"]) none none]) none,
          Node.mk (some ["B"]) none
            (some [Node.mk (some ["x"]) (some ["2"]) none none,
              Node.mk (some ["y"]) (some ["3"]) none none]) none]) "x" :=
  ((collectSectionData_last_write_wins
    [Node.mk (some ["A"]) none
        (some [Node.mk (some ["x"]) (some ["1"]) none none]) none,
      Node.mk (some ["B"]) none
        (some [Node.mk (some ["x"]) (some ["2"]) none none,
          Node.mk (some ["y"]) (some ["3"]) none none]) none]
    "x" (by decide)).2.2.1 rfl).1

/-- C1 as stated fails: a named node with both a value list and children is recorded as
a leaf and not descended into, so the leaf `inner` that the walk reaches beneath it is
not in the map; and a leaf named `__proto__` that the walk reaches creates no key. -/
theorem collectSectionData_walk_counterexample :
    specWalk
      [Node.mk (some ["a"]) (some ["1"])
        (some [Node.mk (some ["inner"]) (some ["2"]) none none]) none]
      = [("a", some "1"), ("inner", some "2")] ∧
    collectSectionData
      [Node.mk (some ["a"]) (some ["1"])
        (some [Node.mk (some ["inner"]) (some ["2"]) none none]) none]
      = [("a", some "1")] ∧
    specWalk
      [Node.mk (some ["__proto__"]) (some ["x"]) none none,
        Node.mk (some ["a"]) (some ["1"]) none none]
      = [("__proto__", some "x"), ("a", some "1")] ∧
    collectSectionData
      [Node.mk (some ["__proto__"]) (some ["x"]) none none,
        Node.mk (some ["a"]) (some ["1"]) none none]
      = [("a", some "1")] := by
  decide

/-- C2: `filterItems` returns the list unchanged for an absent config and for a config
without keys; with an include list (whatever the exclude list) it returns exactly the
nodes that have a name and whose first name is a member of the include list; with an
exclude list and no include list exactly the nodes whose first name is not a member of
the exclude list (a node without a name among them); with neither list the list
unchanged; always in the original order. -/
theorem filterItems_include_exclude (items : List Node) (names : List String)
    (excludeRule : Option (List String)) (nested : Option (List (String × FilterConfig)))
    (others : List String) :
    filterItems items none = items ∧
    filterItems items (some (FilterConfig.mk none none none [])) = items ∧
    filterItems items (some (FilterConfig.mk (some names) excludeRule nested others)) =
      items.filter (fun n =>
        match n.name with
        | some (s :: _) => decide (s ∈ names)
        | _ => false) ∧
    filterItems items (some (FilterConfig.mk none (some names) nested others)) =
      items.filter (fun n =>
        match n.name with
        | some (s :: _) => decide (s ∉ names)
        | _ => true) ∧
    filterItems items (some (FilterConfig.mk none none nested others)) = items ∧
    (∀ n, n ∈ filterItems items
        (some (FilterConfig.mk (some names) excludeRule nested others)) ↔
      n ∈ items ∧ ∃ s rest, n.name = some (s :: rest) ∧ s ∈ names) ∧
    (filterItems items (some (FilterConfig.mk (some names) excludeRule nested others))).Sublist
      items ∧
    (filterItems items (some (FilterConfig.mk none (some names) nested others))).Sublist
      items := by
  have hinc : filterItems items (some (FilterConfig.mk (some names) excludeRule nested others))
      = items.filter (fun n =>
        match n.name with
        | some (s :: _) => decide (s ∈ names)
        | _ => false) := by
    simp only [filterItems, FilterConfig.keyCount, FilterConfig.includeRule]
    rw [if_neg (by simp)]
    apply List.filter_congr
    intro n _
    obtain ⟨nm, value, item, ident⟩ := n
    cases nm with
    | none => rfl
    | some l =>
      cases l with
      | nil => rfl
      | cons s rest => simp [includesName, Node.firstName, Node.name]
  have hexc : filterItems items (some (FilterConfig.mk none (some names) nested others))
      = items.filter (fun n =>
        match n.name with
        | some (s :: _) => decide (s ∉ names)
        | _ => true) := by
    simp only [filterItems, FilterConfig.keyCount, FilterConfig.includeRule,
      FilterConfig.excludeRule]
    rw [if_neg (by simp)]
    apply List.filter_congr
    intro n _
    obtain ⟨nm, value, item, ident⟩ := n
    cases nm with
    | none => rfl
    | some l =>
      cases l with
      | nil => rfl
      | cons s rest => simp [includesName, Node.firstName, Node.name]
  refine ⟨rfl, rfl, hinc, hexc, ?_, ?_, ?_, ?_⟩
  · simp only [filterItems, FilterConfig.includeRule, FilterConfig.excludeRule, ite_self]
  · intro n
    rw [hinc, List.mem_filter]
    constructor
    · rintro ⟨hn, hp⟩
      refine ⟨hn, ?_⟩
      obtain ⟨nm, value, item, ident⟩ := n
      cases nm with
      | none => exact absurd hp (by simp [Node.name])
      | some l =>
        cases l with
        | nil => exact absurd hp (by simp [Node.name])
        | cons s rest => exact ⟨s, rest, rfl, by simpa [Node.name] using hp⟩
    · rintro ⟨hn, s, rest, hname, hs⟩
      refine ⟨hn, ?_⟩
      rw [hname]
      simpa using hs
  · rw [hinc]
    exact List.filter_sublist _
  · rw [hexc]
    exact List.filter_sublist _

theorem spanDigits_fst_isEmpty (l : List Char) :
    (spanDigits l).1.isEmpty = match l with
      | [] => true
      | d :: _ => !d.isDigit := by
  cases l with
  | nil => rfl
  | cons d ds => by_cases h : d.isDigit = true <;> simp [spanDigits, h]

theorem readUnsignedDecimal_eq_none_iff (u : List Char) :
    readUnsignedDecimal u = none ↔
      (match u with
        | [] => false
        | c :: cs => c.isDigit || (c = '.' && match cs with
          | [] => false
          | d :: _ => d.isDigit)) = false := by
  cases u with
  | nil => simp [readUnsignedDecimal, spanDigits]
  | cons c cs =>
    by_cases hc : c.isDigit = true
    · have h1 : (spanDigits (c :: cs)).1.isEmpty = false := by
        rw [spanDigits_fst_isEmpty]; simp [hc]
      simp only [hc, Bool.true_or, Bool.true_eq_false, iff_false]
      unfold readUnsignedDecimal
      simp only [h1, Bool.false_and]
      split
      · split <;> simp
      · simp
    · have hnd : c.isDigit = false := by simpa using hc
      have h2 : spanDigits (c :: cs) = ([], c :: cs) := by simp [spanDigits, hnd]
      unfold readUnsignedDecimal
      simp only [h2, hnd, Bool.false_or, List.isEmpty_nil, Bool.true_and, if_true]
      by_cases hdot : c = '.'
      · simp only [hdot, if_true, decide_True, Bool.true_and, spanDigits_fst_isEmpty]
        cases cs with
        | nil => simp
        | cons d ds => by_cases hd : d.isDigit = true <;> simp [hd]
      · simp [hdot]

theorem parseFloat_eq_none_iff (s : String) :
    parseFloat s = none ↔ hasNumericStart s = false := by
  unfold parseFloat parseFloatPrefix hasNumericStart
  simp only [Option.map_eq_none']
  by_cases hinf : (readSign (s.data.dropWhile isStrWhiteSpaceChar)).2.take 8 = "Infinity".data
  · simp [hinf]
  · simp only [hinf, if_false, decide_False, Bool.false_or]
    rw [← readUnsignedDecimal_eq_none_iff]
    cases readUnsignedDecimal (readSign (s.data.dropWhile isStrWhiteSpaceChar)).2 <;> simp

/-- C3, as the code has it: `extractValue(v)` is `null` iff `v` is absent, empty, or
does not begin (after leading white space and an optional sign) with a decimal digit,
a `.` followed by a decimal digit, or `Infinity`; otherwise it is the number
`parseFloat` reads from the longest leading decimal literal, so `"12abc"` yields 12
and `"38,5"` yields 38. -/
theorem extractValue_null_iff_no_numeric_start (v : Option String) :
    (extractValue (RawValue.ofOption v) = .ok none ↔
      v = none ∨ v = some "" ∨ ∃ s, v = some s ∧ hasNumericStart s = false) ∧
    extractValue (RawValue.ofOption v) =
      (match v with
        | none => .ok none
        | some s => if s = "" then .ok none else .ok (parseFloat s)) ∧
    extractValue (.str "12abc") = .ok (some (.decimal false 12 0)) ∧
    extractValue (.str "38,5") = .ok (some (.decimal false 38 0)) := by
  have heq : extractValue (RawValue.ofOption v) =
      (match v with
        | none => .ok none
        | some s => if s = "" then .ok none else .ok (parseFloat s)) := by
    cases v with
    | none => rfl
    | some s =>
      by_cases hs : s = "" <;>
        simp [extractValue, RawValue.ofOption, RawValue.isTruthy, hs]
  refine ⟨?_, heq, by decide, by decide⟩
  rw [heq]
  cases v with
  | none => simp
  | some s =>
    by_cases hs : s = ""
    · simp [hs]
    · simp only [hs, if_false, Except.ok.injEq, parseFloat_eq_none_iff, false_or,
        Option.some.injEq, exists_eq_left', reduceCtorEq]

/-- C3 as stated fails: `"12abc"` and `"38,5"` are not decimal numbers as a whole, yet
`extractValue` returns 12 and 38 for them, not `null`. -/
theorem extractValue_whole_string_counterexample :
    isDecimalNumber "12abc" = false ∧
    extractValue (.str "12abc") = .ok (some (.decimal false 12 0)) ∧
    isDecimalNumber "38,5" = false ∧
    extractValue (.str "38,5") = .ok (some (.decimal false 38 0)) ∧
    ¬ (∀ v : Option String, extractValue (RawValue.ofOption v) = .ok none ↔
        v = none ∨ v = some "" ∨ ∃ s, v = some s ∧ isDecimalNumber s = false) := by
  refine ⟨by decide, by decide, by decide, by decide, fun h => ?_⟩
  have h1 := (h (some "12abc")).mpr (Or.inr (Or.inr ⟨"12abc", rfl, by decide⟩))
  exact absurd h1 (by decide)


theorem foldl_eq_foldl_set_filterMap {α V : Type} (f : α → Option (String × V))
    (body : JSObj V → α → JSObj V)
    (hb : ∀ acc a, body acc a = match f a with
      | some p => JSObj.set acc p.1 p.2
      | none => acc)
    (items : List α) (acc : JSObj V) :
    items.foldl body acc =
      (items.filterMap f).foldl (fun acc p => JSObj.set acc p.1 p.2) acc := by
  induction items generalizing acc with
  | nil => rfl
  | cons a rest ih =>
    rw [List.foldl_cons, ih, hb, List.filterMap_cons]
    cases f a <;> rfl

theorem collectEnergiemonitorData_own (items : List Node) :
    (collectEnergiemonitorData items).own =
      (items.filterMap subcategoryEntry).foldl (fun acc p => JSObj.set acc p.1 p.2) [] := by
  suffices h : ∀ e : EnergiemonitorData,
      (items.foldl collectEnergiemonitorData.body e).own =
        (items.filterMap subcategoryEntry).foldl (fun acc p => JSObj.set acc p.1 p.2) e.own from
    h { proto := none, own := [] }
  induction items with
  | nil => intro e; rfl
  | cons a rest ih =>
    intro e
    rw [List.foldl_cons, ih, List.filterMap_cons]
    unfold collectEnergiemonitorData.body subcategoryEntry isNamedSection
    dsimp only
    split <;> rfl

theorem collectCategoryData_eq (items : List Node) :
    collectCategoryData items =
      (items.filterMap categoryEntry).foldl (fun acc p => JSObj.set acc p.1 p.2) [] := by
  unfold collectCategoryData
  apply foldl_eq_foldl_set_filterMap
  intro acc a
  unfold collectCategoryData.body categoryEntry isNamedSection
  dsimp only
  split
  · rename_i h
    have ht : truthy a.firstName = true := by
      simp only [Bool.and_eq_true] at h; exact h.2
    cases hn : a.firstName with
    | none => rw [hn] at ht; exact absurd ht (by decide)
    | some s =>
      by_cases hs : s = "Energiemonitor"
      · subst hs
        simp
      · simp [hs]
  · rfl

theorem get_collectCategoryData (items : List Node) (key : String)
    (hkey : key ≠ "__proto__") :
    JSObj.get (collectCategoryData items) key =
      lastWrite (items.filterMap categoryEntry) key := by
  rw [collectCategoryData_eq, JSObj.get_foldl_set _ _ _ hkey]
  simp [JSObj.get]

theorem categoryEntry_eq_some_iff (n : Node) (key : String) :
    (∃ v, categoryEntry n = some (key, v)) ↔
      isNamedSection n = true ∧ n.firstName = some key := by
  constructor
  · rintro ⟨v, he⟩
    unfold categoryEntry at he
    by_cases hs : isNamedSection n = true
    · refine ⟨hs, ?_⟩
      have ht : truthy n.firstName = true := by
        unfold isNamedSection at hs
        simp only [Bool.and_eq_true] at hs; exact hs.2
      cases hf : n.firstName with
      | none => rw [hf] at ht; exact absurd ht (by decide)
      | some s =>
        rw [hf] at he
        simp only [hs, if_true, Option.getD_some] at he
        by_cases hse : s = "Energiemonitor"
        · simp only [hse, if_true, Option.some.injEq, Prod.mk.injEq] at he
          rw [hse, he.1]
        · simp only [hse, if_false, Option.some.injEq, Prod.mk.injEq] at he
          rw [he.1]
    · simp [hs] at he
  · rintro ⟨hs, hf⟩
    unfold categoryEntry
    simp only [hs, hf, if_true, Option.getD_some]
    by_cases hse : key = "Energiemonitor"
    · rw [if_pos hse, hse]; exact ⟨_, rfl⟩
    · rw [if_neg hse]; exact ⟨_, rfl⟩

theorem hasOwnProperty_collectCategoryData (items : List Node) (key : String)
    (hkey : key ≠ "__proto__") :
    JSObj.hasOwnProperty (collectCategoryData items) key = true ↔
      ∃ n ∈ items, isNamedSection n = true ∧ n.firstName = some key := by
  have h2 := get_collectCategoryData items key hkey
  unfold JSObj.hasOwnProperty
  rw [h2, lastWrite_isSome_iff]
  constructor
  · rintro ⟨v, hv⟩
    rw [List.mem_filterMap] at hv
    obtain ⟨n, hn, he⟩ := hv
    exact ⟨n, hn, (categoryEntry_eq_some_iff n key).mp ⟨v, he⟩⟩
  · rintro ⟨n, hn, hs⟩
    obtain ⟨v, hv⟩ := (categoryEntry_eq_some_iff n key).mpr hs
    exact ⟨v, List.mem_filterMap.mpr ⟨n, hn, hv⟩⟩

theorem hasOwnProperty_collectCategoryData_proto (items : List Node) :
    JSObj.hasOwnProperty (collectCategoryData items) "__proto__" = false := by
  unfold JSObj.hasOwnProperty
  rw [collectCategoryData_eq, JSObj.get_foldl_set_proto]
  rfl

/-- C4 fails on the code for the name `__proto__`: a top-level node with that name and
children is a named node with children, yet the map returned by `collectCategoryData`
never has the key `__proto__`, and a subcategory of `Energiemonitor` with that name
becomes the prototype of the subcategory object instead of a key of it.  For every other
key the claim holds: the key is present exactly when a node with a name and children has
that name, and it maps to what the last such node contributes (the object of its
subcategories under `Energiemonitor`, the flattened map of its children otherwise). -/
theorem collectCategoryData_proto_key_missing :
    isNamedSection (Node.mk (some ["__proto__"]) none
      (some [Node.mk (some ["a"]) (some ["1"]) none none]) none) = true ∧
    collectCategoryData
      [Node.mk (some ["__proto__"]) none
          (some [Node.mk (some ["a"]) (some ["1"]) none none]) none,
        Node.mk (some ["Temperaturen"]) none
          (some [Node.mk (some ["Vorlauf"]) (some ["45.3°C"]) none none]) none]
      = [("Temperaturen", .flat [("Vorlauf", some "45.3°C")])] ∧
    collectEnergiemonitorData
      [Node.mk (some ["__proto__"]) none
          (some [Node.mk (some ["a"]) (some ["1"]) none none]) none,
        Node.mk (some ["Wärmemenge"]) none
          (some [Node.mk (some ["Heizung"]) (some ["12 kWh"]) none none]) none]
      = { proto := some [("a", some "1")],
          own := [("Wärmemenge", [("Heizung", some "12 kWh")])] } ∧
    (∀ items : List Node,
      JSObj.hasOwnProperty (collectCategoryData items) "__proto__" = false) ∧
    (∀ (items : List Node) (key : String), key ≠ "__proto__" →
      (JSObj.hasOwnProperty (collectCategoryData items) key = true ↔
        ∃ n ∈ items, isNamedSection n = true ∧ n.firstName = some key) ∧
      JSObj.get (collectCategoryData items) key =
        lastWrite (items.filterMap categoryEntry) key ∧
      JSObj.get (collectEnergiemonitorData items).own key =
        lastWrite (items.filterMap subcategoryEntry) key) := by
  refine ⟨by decide, by decide, by decide, hasOwnProperty_collectCategoryData_proto, ?_⟩
  intro items key hkey
  refine ⟨hasOwnProperty_collectCategoryData items key hkey,
    get_collectCategoryData items key hkey, ?_⟩
  rw [collectEnergiemonitorData_own, JSObj.get_foldl_set _ _ _ hkey]
  simp [JSObj.get]

theorem extractValue_of_not_obj (raw : RawValue) (h : ∀ o, raw ≠ .obj o) :
    ∃ v, extractValue raw = .ok v := by
  cases raw with
  | undefined => exact ⟨none, rfl⟩
  | str s =>
    by_cases hs : s = ""
    · exact ⟨none, by simp [extractValue, RawValue.isTruthy, hs]⟩
    · exact ⟨parseFloat s, by simp [extractValue, RawValue.isTruthy, hs]⟩
  | obj o => exact absurd rfl (h o)

theorem flat_prop_not_obj (d : Section) (key : String) (o : Section) :
    (CatVal.flat d).prop key ≠ .obj o := by
  simp only [CatVal.prop]
  split <;> simp

theorem numericArgs_flat (d : Section) (keys : List String) :
    ∃ cells, numericArgs (fun k => .ok ((CatVal.flat d).prop k)) keys = .ok cells := by
  induction keys with
  | nil => exact ⟨[], rfl⟩
  | cons key rest ih =>
    obtain ⟨cells, hc⟩ := ih
    obtain ⟨v, hv⟩ := extractValue_of_not_obj _ (flat_prop_not_obj d key)
    exact ⟨Cell.ofExtracted v :: cells, by simp [numericArgs, hv, hc]⟩

theorem rawProp_not_obj (data : RawValue) (ht : data.isTruthy = true) (key : String) :
    ∃ raw, data.prop key = .ok raw ∧ ∀ o, raw ≠ .obj o := by
  cases data with
  | undefined => exact absurd ht (by decide)
  | str s => exact ⟨.undefined, rfl, by simp⟩
  | obj o =>
    simp only [RawValue.prop]
    split
    · exact ⟨_, rfl, by simp⟩
    · exact ⟨_, rfl, by simp⟩

theorem numericArgs_rawProp (data : RawValue) (ht : data.isTruthy = true)
    (keys : List String) : ∃ cells, numericArgs data.prop keys = .ok cells := by
  induction keys with
  | nil => exact ⟨[], rfl⟩
  | cons key rest ih =>
    obtain ⟨cells, hc⟩ := ih
    obtain ⟨raw, hr, hno⟩ := rawProp_not_obj data ht key
    obtain ⟨v, hv⟩ := extractValue_of_not_obj raw hno
    exact ⟨Cell.ofExtracted v :: cells, by simp [numericArgs, hr, hv, hc]⟩

theorem runInsert_ok (db : Store) (table : Table) (row : Row) :
    runInsert noInsertFails db table (.ok row) = .ok (db.insert table row) := by
  simp [runInsert, noInsertFails]

theorem switch_noInsertFails (timestamp : Nat) (state : Store × Nat) (category : String)
    (data : CatVal) (hshape : coercedIsFlat category data) :
    ∃ db1, saveSnapshotData.switch noInsertFails timestamp state category data =
      .ok (db1, state.2 + categoriesWritten category data) := by
  unfold saveSnapshotData.switch
  split
  · obtain ⟨d, hd⟩ := hshape (by simp [coercedCategories])
    obtain ⟨cells, hc⟩ := numericArgs_flat d
      ["Vorlauf", "Rücklauf", "Rückl.-Soll", "Heissgas", "Außentemperatur", "Mitteltemperatur",
      "Warmwasser-Ist", "Warmwasser-Soll", "Wärmequelle-Ein", "Wärmequelle-Aus",
      "Mischkreis1-Vorlauf", "Mischkreis1 VL-Soll", "Vorlauf max.", "Ansaug VD",
      "VD-Heizung", "Überhitzung"]
    subst hd
    have hcw : categoriesWritten "Temperaturen" (CatVal.flat d) = 1 := by
      simp [categoriesWritten, knownCategories]
    simp only [hcw, counted, saveTemperaturen, saveTemperaturen.args, hc, Except.map,
      runInsert_ok]
    exact ⟨_, rfl⟩
  · obtain ⟨d, hd⟩ := hshape (by simp [coercedCategories])
    obtain ⟨cells, hc⟩ := numericArgs_flat d ["HD", "ND", "Durchfluss"]
    subst hd
    have hcw : categoriesWritten "Eingänge" (CatVal.flat d) = 1 := by
      simp [categoriesWritten, knownCategories]
    simp only [hcw, counted, saveEingaenge, saveEingaenge.args, hc, Except.map, runInsert_ok]
    exact ⟨_, rfl⟩
  · obtain ⟨d, hd⟩ := hshape (by simp [coercedCategories])
    obtain ⟨cells, hc⟩ := numericArgs_flat d
      ["Freq. Sollwert", "Freq. aktuell", "Ventil.-BOSUP", "HUP"]
    subst hd
    have hcw : categoriesWritten "Ausgänge" (CatVal.flat d) = 1 := by
      simp [categoriesWritten, knownCategories]
    simp only [hcw, counted, saveAusgaenge, saveAusgaenge.args, hc, Except.map, runInsert_ok]
    exact ⟨_, rfl⟩
  · have hcw : categoriesWritten "Abschaltungen" data = 1 := by
      simp [categoriesWritten, knownCategories]
    simp only [hcw, counted, saveAbschaltungen, saveAbschaltungen.args, Except.map,
      runInsert_ok]
    exact ⟨_, rfl⟩
  · obtain ⟨d, hd⟩ := hshape (by simp [coercedCategories])
    obtain ⟨cells, hc⟩ := numericArgs_flat d
      ["Bivalenz Stufe", "Heizleistung Ist", "Leistungsaufnahme"]
    subst hd
    have hcw : categoriesWritten "Anlagenstatus" (CatVal.flat d) = 1 := by
      simp [categoriesWritten, knownCategories]
    simp only [hcw, counted, saveAnlagenstatus, saveAnlagenstatus.args, hc, Except.map,
      runInsert_ok]
    exact ⟨_, rfl⟩
  · simp only [categoriesWritten, if_true]
    by_cases hw : (data.prop "Wärmemenge").isTruthy = true
    · obtain ⟨c1, h1⟩ := numericArgs_rawProp _ hw ["Heizung", "Warmwasser", "Kühlung", "Gesamt"]
      by_cases hl : (data.prop "Leistungsaufnahme").isTruthy = true
      · obtain ⟨c2, h2⟩ :=
          numericArgs_rawProp _ hl ["Heizung", "Warmwasser", "Kühlung", "Gesamt"]
        simp only [hw, hl, if_true, counted, saveEnergiemonitorWaermemenge,
          saveEnergiemonitorLeistungsaufnahme, saveEnergiemonitor.args, h1, h2, Except.map,
          runInsert_ok, Nat.add_assoc]
        exact ⟨_, rfl⟩
      · simp only [hw, hl, if_true, if_false, counted, saveEnergiemonitorWaermemenge,
          saveEnergiemonitor.args, h1, Except.map, runInsert_ok, Nat.add_zero]
        exact ⟨_, rfl⟩
    · by_cases hl : (data.prop "Leistungsaufnahme").isTruthy = true
      · obtain ⟨c2, h2⟩ :=
          numericArgs_rawProp _ hl ["Heizung", "Warmwasser", "Kühlung", "Gesamt"]
        simp only [hw, hl, if_true, if_false, counted,
          saveEnergiemonitorLeistungsaufnahme, saveEnergiemonitor.args, h2, Except.map,
          runInsert_ok, Nat.zero_add]
        exact ⟨_, rfl⟩
      · simp only [hw, hl, if_false, Nat.add_zero]
        exact ⟨_, rfl⟩
  · rename_i h1 h2 h3 h4 h5 h6
    have hcw : categoriesWritten category data = 0 := by
      unfold categoriesWritten
      rw [if_neg h6, if_neg]
      simp only [knownCategories, List.mem_cons, List.mem_singleton, List.not_mem_nil,
        or_false, not_or]
      exact ⟨h1, h2, h3, h4, h5, h6⟩
    exact ⟨state.1, by rw [hcw]; rfl⟩


theorem loop_noInsertFails (timestamp : Nat) (entries : List (String × CatVal))
    (state : Store × Nat) (hshape : ∀ p ∈ entries, coercedIsFlat p.1 p.2) :
    ∃ db1, saveSnapshotData.loop noInsertFails timestamp entries state =
      .ok (db1, state.2 + (entries.map fun p => categoriesWritten p.1 p.2).sum) := by
  induction entries generalizing state with
  | nil => exact ⟨state.1, rfl⟩
  | cons p rest ih =>
    obtain ⟨category, data⟩ := p
    obtain ⟨db1, h1⟩ := switch_noInsertFails timestamp state category data
      (hshape (category, data) (List.mem_cons_self _ _))
    obtain ⟨db2, h2⟩ := ih (db1, state.2 + categoriesWritten category data)
      (fun q hq => hshape q (List.mem_cons_of_mem _ hq))
    refine ⟨db2, ?_⟩
    simp only [saveSnapshotData.loop, h1, h2, List.map_cons, List.sum_cons, Nat.add_assoc]

theorem saveSnapshotData_noInsertFails (db : Store) (now : Nat) (cd : JSObj CatVal)
    (hshape : ∀ p ∈ cd, coercedIsFlat p.1 p.2) :
    (saveSnapshotData noInsertFails db now cd).1 =
      { snapshots := if (cd.map fun p => categoriesWritten p.1 p.2).sum > 0 then 1 else 0,
        categories := (cd.map fun p => categoriesWritten p.1 p.2).sum } := by
  have hperm := JSObj.ownEntries_perm cd
  obtain ⟨db1, h1⟩ := loop_noInsertFails (now / 1000) (JSObj.ownEntries cd) (db, 0)
    (fun p hp => hshape p (hperm.mem_iff.mp hp))
  have hsum : ((JSObj.ownEntries cd).map fun p => categoriesWritten p.1 p.2).sum =
      (cd.map fun p => categoriesWritten p.1 p.2).sum := (hperm.map _).sum_eq
  simp only [saveSnapshotData, h1, hsum, Nat.zero_add]

theorem categoriesWritten_of_unknown (category : String) (data : CatVal)
    (h : category ∉ knownCategories) : categoriesWritten category data = 0 := by
  unfold categoriesWritten
  have hne : ¬ category = "Energiemonitor" := fun e => h (by simp [knownCategories, e])
  rw [if_neg hne, if_neg h]

theorem sum_categoriesWritten_single (cd : JSObj CatVal) (k : String) (v : CatVal)
    (hnodup : JSObj.NodupKeys cd) (hmem : (k, v) ∈ cd)
    (hothers : ∀ p ∈ cd, p.1 ≠ k → p.1 ∉ knownCategories) :
    (cd.map fun p => categoriesWritten p.1 p.2).sum = categoriesWritten k v := by
  induction cd with
  | nil => exact absurd hmem (List.not_mem_nil _)
  | cons p rest ih =>
    have hn : p.1 ∉ rest.map Prod.fst ∧ JSObj.NodupKeys rest := by
      simpa [JSObj.NodupKeys] using hnodup
    rw [List.map_cons, List.sum_cons]
    rcases List.mem_cons.mp hmem with e | e
    · have hrest : (rest.map fun q => categoriesWritten q.1 q.2).sum = 0 := by
        apply List.sum_eq_zero
        intro x hx
        obtain ⟨q, hq, rfl⟩ := List.mem_map.mp hx
        apply categoriesWritten_of_unknown
        apply hothers q (List.mem_cons_of_mem _ hq)
        intro hqk
        apply hn.1
        rw [← e]
        exact List.mem_map.mpr ⟨q, hq, hqk⟩
      rw [hrest, ← e]
      rfl
    · have hpk : p.1 ≠ k := by
        intro hpk
        apply hn.1
        rw [hpk]
        exact List.mem_map.mpr ⟨(k, v), e, rfl⟩
      rw [categoriesWritten_of_unknown p.1 p.2 (hothers p (List.mem_cons_self _ _) hpk),
        Nat.zero_add]
      exact ih hn.2 e (fun q hq => hothers q (List.mem_cons_of_mem _ hq))

/-- C6, as the code has it: for a category map with exactly one known category name,
any number of unknown names, and no failing insert, `saveSnapshotData` returns
`categories == 1` and `snapshots == 1` when the known category is one of the five flat
ones; for `Energiemonitor` it returns as `categories` the number of the subcategories
`Wärmemenge` and `Leistungsaufnahme` present (0, 1 or 2) and `snapshots == 1` iff that
number is positive. -/
theorem saveSnapshotData_one_known_category (db : Store) (now : Nat) (cd : JSObj CatVal)
    (k : String) (v : CatVal) (hnodup : JSObj.NodupKeys cd) (hmem : (k, v) ∈ cd)
    (hknown : k ∈ knownCategories)
    (hothers : ∀ p ∈ cd, p.1 ≠ k → p.1 ∉ knownCategories)
    (hshape : coercedIsFlat k v) :
    (saveSnapshotData noInsertFails db now cd).1 =
      { snapshots := if categoriesWritten k v > 0 then 1 else 0,
        categories := categoriesWritten k v } ∧
    (k ≠ "Energiemonitor" → categoriesWritten k v = 1) ∧
    (k = "Energiemonitor" → categoriesWritten k v =
      (if (v.prop "Wärmemenge").isTruthy then 1 else 0)
        + (if (v.prop "Leistungsaufnahme").isTruthy then 1 else 0)) := by
  refine ⟨?_, ?_, ?_⟩
  · rw [saveSnapshotData_noInsertFails, sum_categoriesWritten_single cd k v hnodup hmem hothers]
    intro p hp
    by_cases hpk : p.1 = k
    · have hv : p.2 = v := by
        have h1 := (JSObj.get_eq_some_iff hnodup p.1 p.2).mpr hp
        have h2 := (JSObj.get_eq_some_iff hnodup k v).mpr hmem
        rw [hpk, h2] at h1
        exact (Option.some.inj h1).symm
      rw [hpk, hv]
      exact hshape
    · intro hc
      exfalso
      apply hothers p hp hpk
      simp only [coercedCategories, List.mem_cons, List.mem_singleton, List.not_mem_nil,
        or_false] at hc
      rcases hc with e | e | e | e <;> simp [knownCategories, e]
  · intro hne
    unfold categoriesWritten
    rw [if_neg hne, if_pos hknown]
  · intro he
    unfold categoriesWritten
    rw [if_pos he]

/-- Witness for C6: a map with the known category `Temperaturen` and the unknown
categories `Foo` and `7`. -/
theorem saveSnapshotData_one_known_category_witness :
    (saveSnapshotData noInsertFails (fun _ => []) 5000
      [("Foo", .flat [("a", some "1")]),
        ("Temperaturen", .flat [("Vorlauf", some "45.3°C")]),
        ("7", .nested [])]).1 = { snapshots := 1, categories := 1 } :=
  (saveSnapshotData_one_known_category (fun _ => []) 5000
    [("Foo", .flat [("a", some "1")]),
      ("Temperaturen", .flat [("Vorlauf", some "45.3°C")]),
      ("7", .nested [])]
    "Temperaturen" (.flat [("Vorlauf", some "45.3°C")])
    (by unfold JSObj.NodupKeys; decide) (by decide) (by decide) (by decide)
    (fun _ => ⟨_, rfl⟩)).1

/-- C6 as stated fails for `Energiemonitor`: with both subcategories present and no
other category the call returns `categories == 2`, with none it returns
`categories == 0` and `snapshots == 0`. -/
theorem saveSnapshotData_energiemonitor_counterexample :
    (saveSnapshotData noInsertFails (fun _ => []) 5000
      [("Energiemonitor", .nested
        [("Wärmemenge", [("Heizung", some "12 kWh")]),
          ("Leistungsaufnahme", [("Heizung", some "3 kWh")])])]).1
      = { snapshots := 1, categories := 2 } ∧
    (saveSnapshotData noInsertFails (fun _ => []) 5000
      [("Energiemonitor", .nested [])]).1 = { snapshots := 0, categories := 0 } := by
  decide


theorem runPlan_append (fails : InsertOracle) (p q : List (Table × Except JSError Row))
    (state : Store × Nat) :
    runPlan fails (p ++ q) state =
      match runPlan fails p state with
      | .error e => .error e
      | .ok state1 => runPlan fails q state1 := by
  induction p generalizing state with
  | nil => rfl
  | cons stmt rest ih =>
    simp only [List.cons_append, runPlan]
    cases runInsert fails state.1 stmt.1 stmt.2 with
    | error e => rfl
    | ok db1 => exact ih _

theorem runPlan_single (fails : InsertOracle) (table : Table) (args : Except JSError Row)
    (state : Store × Nat) :
    runPlan fails [(table, args)] state = counted state.2 (runInsert fails state.1 table args) := by
  simp only [runPlan, counted]
  cases runInsert fails state.1 table args <;> rfl

theorem switch_eq_runPlan (fails : InsertOracle) (timestamp : Nat) (state : Store × Nat)
    (category : String) (data : CatVal) :
    saveSnapshotData.switch fails timestamp state category data =
      runPlan fails (insertPlan.entry timestamp category data) state := by
  unfold saveSnapshotData.switch insertPlan.entry
  split
  · simp only [runPlan_single, saveTemperaturen]
  · simp only [runPlan_single, saveEingaenge]
  · simp only [runPlan_single, saveAusgaenge]
  · simp only [runPlan_single, saveAbschaltungen]
  · simp only [runPlan_single, saveAnlagenstatus]
  · rw [runPlan_append]
    by_cases hw : (data.prop "Wärmemenge").isTruthy = true
    · by_cases hl : (data.prop "Leistungsaufnahme").isTruthy = true
      · simp only [hw, hl, if_true, runPlan_single, saveEnergiemonitorWaermemenge,
          saveEnergiemonitorLeistungsaufnahme]
      · simp only [hw, hl, if_true, if_false, Bool.false_eq_true, runPlan_single,
          saveEnergiemonitorWaermemenge, runPlan]
    · by_cases hl : (data.prop "Leistungsaufnahme").isTruthy = true
      · simp only [hw, hl, if_true, if_false, Bool.false_eq_true, runPlan_single,
          saveEnergiemonitorLeistungsaufnahme, runPlan]
      · simp only [hw, hl, if_false, Bool.false_eq_true, runPlan]
  · rfl

theorem loop_eq_runPlan (fails : InsertOracle) (timestamp : Nat)
    (entries : List (String × CatVal)) (state : Store × Nat) :
    saveSnapshotData.loop fails timestamp entries state =
      runPlan fails (insertPlan timestamp entries) state := by
  induction entries generalizing state with
  | nil => rfl
  | cons p rest ih =>
    obtain ⟨category, data⟩ := p
    simp only [saveSnapshotData.loop, insertPlan, List.flatMap_cons, runPlan_append,
      switch_eq_runPlan]
    cases runPlan fails (insertPlan.entry timestamp category data) state with
    | error e => rfl
    | ok state1 => exact ih state1


theorem runPlan_of_throw (fails : InsertOracle) (done : List (Table × Row))
    (failing : Table × Except JSError Row) (rest : List (Table × Except JSError Row))
    (state : Store × Nat) (hdone : succeedIn fails state.1 done = true)
    (hfail : throwsIn fails (insertAll state.1 done) failing) :
    ∃ e, runPlan fails (executed done ++ failing :: rest) state =
      .error (e, insertAll state.1 done) := by
  induction done generalizing state with
  | nil =>
    obtain ⟨table, args⟩ := failing
    cases args with
    | error e => exact ⟨e, rfl⟩
    | ok row =>
      have hf : fails state.1 table row = true := hfail
      exact ⟨.insertFailed, by simp [executed, runPlan, runInsert, hf, insertAll]⟩
  | cons p more ih =>
    have h1 : fails state.1 p.1 p.2 = false ∧
        succeedIn fails (state.1.insert p.1 p.2) more = true := by
      simpa [succeedIn] using hdone
    obtain ⟨e, he⟩ := ih (state.1.insert p.1 p.2, state.2 + 1) h1.2 hfail
    refine ⟨e, ?_⟩
    simp only [executed, List.map_cons, List.cons_append, runPlan, runInsert, h1.1,
      Bool.false_eq_true, if_false]
    exact he

theorem runPlan_of_success (fails : InsertOracle) (done : List (Table × Row))
    (state : Store × Nat) (hdone : succeedIn fails state.1 done = true) :
    runPlan fails (executed done) state =
      .ok (insertAll state.1 done, state.2 + done.length) := by
  induction done generalizing state with
  | nil => rfl
  | cons p more ih =>
    have h1 : fails state.1 p.1 p.2 = false ∧
        succeedIn fails (state.1.insert p.1 p.2) more = true := by
      simpa [succeedIn] using hdone
    have h2 := ih (state.1.insert p.1 p.2, state.2 + 1) h1.2
    simp only [executed, List.map_cons, runPlan, runInsert, h1.1, Bool.false_eq_true,
      if_false]
    rw [show List.map (fun p => (p.1, Except.ok p.2)) more = executed more from rfl, h2]
    simp only [insertAll, List.foldl_cons, List.length_cons]
    congr 2
    omega

theorem saveSnapshotData_of_throw (fails : InsertOracle) (db : Store) (now : Nat)
    (cd : JSObj CatVal) (done : List (Table × Row))
    (failing : Table × Except JSError Row) (rest : List (Table × Except JSError Row))
    (hplan : insertPlan (now / 1000) (JSObj.ownEntries cd) = executed done ++ failing :: rest)
    (hdone : succeedIn fails db done = true)
    (hfail : throwsIn fails (insertAll db done) failing) :
    saveSnapshotData fails db now cd =
      ({ snapshots := 0, categories := 0 }, insertAll db done) := by
  obtain ⟨e, he⟩ := runPlan_of_throw fails done failing rest (db, 0) hdone hfail
  simp only [saveSnapshotData, loop_eq_runPlan, hplan, he]

/-- C7: at whatever point of its plan of inserts a statement throws, after however many
inserts of the same call succeeded, `saveSnapshotData` returns normally with
`snapshots == 0` and `categories == 0`. -/
theorem saveSnapshotData_zero_on_throw (fails : InsertOracle) (db : Store) (now : Nat)
    (cd : JSObj CatVal) (done : List (Table × Row))
    (failing : Table × Except JSError Row) (rest : List (Table × Except JSError Row))
    (hplan : insertPlan (now / 1000) (JSObj.ownEntries cd) = executed done ++ failing :: rest)
    (hdone : succeedIn fails db done = true)
    (hfail : throwsIn fails (insertAll db done) failing) :
    (saveSnapshotData fails db now cd).1 = { snapshots := 0, categories := 0 } := by
  rw [saveSnapshotData_of_throw fails db now cd done failing rest hplan hdone hfail]

/-- Witness for C7: `Temperaturen` is inserted, then the insert for `Eingänge` throws. -/
theorem saveSnapshotData_zero_on_throw_witness :
    (saveSnapshotData (fun _ table _ => decide (table = Table.eingaenge)) (fun _ => []) 5000
      [("Temperaturen", .flat [("Vorlauf", some "45.3°C")]),
        ("Eingänge", .flat [("ASD", some "Ein")])]).1
      = { snapshots := 0, categories := 0 } :=
  saveSnapshotData_zero_on_throw (fun _ table _ => decide (table = Table.eingaenge))
    (fun _ => []) 5000
    [("Temperaturen", .flat [("Vorlauf", some "45.3°C")]),
      ("Eingänge", .flat [("ASD", some "Ein")])]
    [(Table.temperaturen, ⟨5, [.number (.decimal false 453 (-1)), .null, .null, .null, .null,
      .null, .null, .null, .null, .null, .null, .null, .null, .null, .null, .null]⟩)]
    (Table.eingaenge, .ok ⟨5, [.raw (.str "Ein"), .raw .undefined, .raw .undefined,
      .raw .undefined, .raw .undefined, .null, .null, .null]⟩)
    [] (by decide) (by decide) (by decide : decide (Table.eingaenge = Table.eingaenge) = true)

/-- C8, as the code has it: when a statement of the plan throws, the store after the
call is the store before it with the rows of all inserts that preceded the failing one
appended to their tables, and nothing else changed: earlier inserts of the tick are not
rolled back, the failing insert and the ones after it add nothing. -/
theorem saveSnapshotData_keeps_rows_before_throw (fails : InsertOracle) (db : Store)
    (now : Nat) (cd : JSObj CatVal) (done : List (Table × Row))
    (failing : Table × Except JSError Row) (rest : List (Table × Except JSError Row))
    (hplan : insertPlan (now / 1000) (JSObj.ownEntries cd) = executed done ++ failing :: rest)
    (hdone : succeedIn fails db done = true)
    (hfail : throwsIn fails (insertAll db done) failing) :
    (saveSnapshotData fails db now cd).2 = insertAll db done := by
  rw [saveSnapshotData_of_throw fails db now cd done failing rest hplan hdone hfail]

/-- Witness for C8 as amended: the row of `Temperaturen` stays when `Eingänge` throws. -/
theorem saveSnapshotData_keeps_rows_before_throw_witness :
    (saveSnapshotData (fun _ table _ => decide (table = Table.eingaenge)) (fun _ => []) 5000
      [("Temperaturen", .flat [("Vorlauf", some "45.3°C")]),
        ("Eingänge", .flat [("ASD", some "Ein")])]).2
      = insertAll (fun _ => [])
        [(Table.temperaturen, ⟨5, [.number (.decimal false 453 (-1)), .null, .null, .null,
          .null, .null, .null, .null, .null, .null, .null, .null, .null, .null, .null,
          .null]⟩)] :=
  saveSnapshotData_keeps_rows_before_throw
    (fun _ table _ => decide (table = Table.eingaenge)) (fun _ => []) 5000
    [("Temperaturen", .flat [("Vorlauf", some "45.3°C")]),
      ("Eingänge", .flat [("ASD", some "Ein")])]
    [(Table.temperaturen, ⟨5, [.number (.decimal false 453 (-1)), .null, .null, .null, .null,
      .null, .null, .null, .null, .null, .null, .null, .null, .null, .null, .null]⟩)]
    (Table.eingaenge, .ok ⟨5, [.raw (.str "Ein"), .raw .undefined, .raw .undefined,
      .raw .undefined, .raw .undefined, .null, .null, .null]⟩)
    [] (by decide) (by decide) (by decide : decide (Table.eingaenge = Table.eingaenge) = true)

/-- C8 as stated fails: the insert for `Eingänge` throws and the call reports zero, yet
the table `temperaturen`, empty before the call, holds afterwards the row stamped with
this tick that was inserted earlier in the same call. -/
theorem saveSnapshotData_partial_commit_counterexample :
    (saveSnapshotData (fun _ table _ => decide (table = Table.eingaenge)) (fun _ => []) 5000
      [("Temperaturen", .flat [("Vorlauf", some "45.3°C")]),
        ("Eingänge", .flat [("ASD", some "Ein")])]).1
      = { snapshots := 0, categories := 0 } ∧
    ((saveSnapshotData (fun _ table _ => decide (table = Table.eingaenge)) (fun _ => []) 5000
      [("Temperaturen", .flat [("Vorlauf", some "45.3°C")]),
        ("Eingänge", .flat [("ASD", some "Ein")])]).2 Table.temperaturen).map Row.timestamp
      = [5] ∧
    (saveSnapshotData (fun _ table _ => decide (table = Table.eingaenge)) (fun _ => []) 5000
      [("Temperaturen", .flat [("Vorlauf", some "45.3°C")]),
        ("Eingänge", .flat [("ASD", some "Ein")])]).2 Table.temperaturen
      ≠ (fun _ => ([] : List Row)) Table.temperaturen := by
  decide


theorem filter_not_older (rows : List Row) (cutoff : Int) :
    rows.filter (fun r => !decide ((r.timestamp : Int) < cutoff)) =
      rows.filter (fun r => decide (cutoff ≤ (r.timestamp : Int))) := by
  apply List.filter_congr
  intro r _
  by_cases h : (r.timestamp : Int) < cutoff
  · simp [h, Int.not_le.mpr h]
  · simp [h, Int.not_lt.mp h]

/-- C10: `deleteOldData` leaves in each of the seven tables exactly the prior rows with
`timestamp >= floor(now/1000) - horizon`, in their order, removes exactly those with
`timestamp < floor(now/1000) - horizon`, and returns the number of rows removed over
all tables; the horizon is `yearsToKeep * 365 * 24 * 60 * 60` seconds, which for the
default argument is 94608000. -/
theorem deleteOldData_removes_exactly_older (db : Store) (now : Nat)
    (yearsToKeep : Option Int) (table : Table) :
    (deleteOldData db now yearsToKeep).2 table =
      (db table).filter (fun r =>
        decide (((now / 1000 : Nat) : Int) - horizonSeconds (yearsToKeep.getD 3)
          ≤ (r.timestamp : Int))) ∧
    (deleteOldData db now yearsToKeep).1 =
      (tables.map fun t => ((db t).filter fun r =>
        decide ((r.timestamp : Int)
          < ((now / 1000 : Nat) : Int) - horizonSeconds (yearsToKeep.getD 3))).length).sum ∧
    horizonSeconds 3 = 94608000 ∧
    deleteOldData db now none = deleteOldData db now (some 3) := by
  refine ⟨?_, ?_, by decide, rfl⟩
  · rw [← filter_not_older]
    cases table <;>
      simp [deleteOldData, tables, deleteWhereOlder, horizonSeconds]
  · simp [deleteOldData, tables, deleteWhereOlder, horizonSeconds, Nat.add_assoc]


theorem handleInformationenContent_keeps (config : Config) (fails : InsertOracle) (now : Nat)
    (s : State) (items : List Node) :
    (handleInformationenContent config fails now s items).sent = s.sent ∧
    (handleInformationenContent config fails now s items).requestedInformationen =
      s.requestedInformationen ∧
    (handleInformationenContent config fails now s items).informationenId =
      s.informationenId := by
  simp [handleInformationenContent, SaveResult.gtZero]

theorem setupInformationenRequest_single (s : State) (items : List Node) (entry : Node)
    (id : String) (hid : entry.id = some id) (hne : id ≠ "")
    (hone : items.filter (fun n => decide (n.firstName = some "Informationen")) = [entry]) :
    (setupInformationenRequest s items).sent = s.sent ++ ["GET;" ++ id] ∧
    (setupInformationenRequest s items).requestedInformationen = true ∧
    (setupInformationenRequest s items).informationenId = some id := by
  induction items with
  | nil => simp at hone
  | cons item rest ih =>
    by_cases hname : item.firstName = some "Informationen"
    · have he : item = entry := by
        rw [List.filter_cons_of_pos (by simpa using hname)] at hone
        exact (List.cons.inj hone).1
      subst he
      have ht : truthy (some id) = true := by
        simpa [truthy] using hne
      simp [setupInformationenRequest, hname, ht, hid]
    · rw [List.filter_cons_of_neg (by simpa using hname)] at hone
      simp only [setupInformationenRequest, hname, decide_False, Bool.false_and,
        Bool.false_eq_true, if_false]
      exact ih hone

theorem processMessage_content_keeps (config : Config) (fails : InsertOracle) (now : Nat)
    (s : State) (result : Message) :
    (processMessage.content config fails now s result).sent = s.sent ∧
    (processMessage.content config fails now s result).requestedInformationen =
      s.requestedInformationen ∧
    (processMessage.content config fails now s result).informationenId =
      s.informationenId := by
  unfold processMessage.content
  split
  · split <;> exact handleInformationenContent_keeps _ _ _ _ _
  · exact ⟨rfl, rfl, rfl⟩

theorem processMessage_after_handshake (config : Config) (fails : InsertOracle) (now : Nat)
    (s : State) (result : Message) (h : s.requestedInformationen = true) :
    (processMessage config fails now s result).sent = s.sent ∧
    (processMessage config fails now s result).requestedInformationen = true ∧
    (processMessage config fails now s result).informationenId = s.informationenId := by
  have hk := processMessage_content_keeps config fails now s result
  unfold processMessage processMessage.navigation
  rw [hk.2.1, h]
  simp only [Bool.not_true, Bool.false_eq_true, if_false]
  exact ⟨hk.1, hk.2.1.trans h, hk.2.2⟩

theorem step_after_handshake (config : Config) (s : State) (event : Event)
    (h : s.requestedInformationen = true) :
    (step config s event).requestedInformationen = true ∧
    (step config s event).informationenId = s.informationenId := by
  cases event with
  | opened => exact ⟨h, rfl⟩
  | message result now fails =>
    exact (processMessage_after_handshake config fails now s result h).2
  | interval =>
    simp only [step, onInterval]
    split
    · split <;> exact ⟨h, rfl⟩
    · exact ⟨h, rfl⟩
  | closed =>
    simp only [step, onClose]
    split <;> exact ⟨h, rfl⟩
  | failed => exact ⟨h, rfl⟩

theorem run_after_handshake (config : Config) (s : State) (events : List Event)
    (h : s.requestedInformationen = true) :
    (run config s events).requestedInformationen = true ∧
    (run config s events).informationenId = s.informationenId := by
  induction events generalizing s with
  | nil => exact ⟨h, rfl⟩
  | cons event rest ih =>
    have h1 := step_after_handshake config s event h
    have h2 := ih (step config s event) h1.1
    exact ⟨h2.1, h2.2.trans h1.2⟩

/-- C5: from a controller that has not yet done the handshake, processing a message
whose Navigation payload holds exactly one entry named `Informationen`, with identifier
`12`, sends exactly the one command `GET;12` in that step, sets `requestedInformationen`
and stores the identifier; after any further events, processing any later message
sends no command and leaves the stored identifier `12`. -/
theorem handshake_sends_get_once (config : Config) (fails : InsertOracle) (now : Nat)
    (s : State) (content : Option Node) (navigation : Node) (items : List Node)
    (entry : Node) (hfresh : s.requestedInformationen = false)
    (hitems : navigation.item = some items)
    (hone : items.filter (fun n => decide (n.firstName = some "Informationen")) = [entry])
    (hid : entry.id = some "12") :
    (processMessage config fails now s ⟨content, some navigation⟩).sent
      = s.sent ++ ["GET;12"] ∧
    (processMessage config fails now s ⟨content, some navigation⟩).requestedInformationen
      = true ∧
    (processMessage config fails now s ⟨content, some navigation⟩).informationenId
      = some "12" ∧
    ∀ (events : List Event) (later : Message) (now2 : Nat) (fails2 : InsertOracle),
      (processMessage config fails2 now2
        (run config (processMessage config fails now s ⟨content, some navigation⟩) events)
        later).sent
        = (run config (processMessage config fails now s ⟨content, some navigation⟩)
            events).sent ∧
      (processMessage config fails2 now2
        (run config (processMessage config fails now s ⟨content, some navigation⟩) events)
        later).informationenId = some "12" := by
  have hfirst : (processMessage config fails now s ⟨content, some navigation⟩).sent
        = s.sent ++ ["GET;12"] ∧
      (processMessage config fails now s ⟨content, some navigation⟩).requestedInformationen
        = true ∧
      (processMessage config fails now s ⟨content, some navigation⟩).informationenId
        = some "12" := by
    have hk := processMessage_content_keeps config fails now s ⟨content, some navigation⟩
    unfold processMessage processMessage.navigation
    rw [hk.2.1, hfresh]
    simp only [Bool.not_false, if_true, hitems]
    rw [← hk.1]
    exact setupInformationenRequest_single _ items entry "12" hid (by decide) hone
  refine ⟨hfirst.1, hfirst.2.1, hfirst.2.2, fun events later now2 fails2 => ?_⟩
  have hrun := run_after_handshake config _ events hfirst.2.1
  have hp := processMessage_after_handshake config fails2 now2 _ later hrun.1
  exact ⟨hp.1, by rw [hp.2.2, hrun.2, hfirst.2.2]⟩

/-- Witness for C5: a fresh controller receives a Navigation payload whose entries are
`Einstellungen` (identifier 7) and `Informationen` (identifier 12). -/
theorem handshake_sends_get_once_witness :
    (processMessage ⟨[], none⟩ noInsertFails 0 (State.fresh ⟨[], none⟩ (fun _ => []))
      ⟨none, some (Node.mk none none
        (some [Node.mk (some ["Einstellungen"]) none none (some "7"),
          Node.mk (some ["Informationen"]) none none (some "12")]) none)⟩).sent
      = [] ++ ["GET;12"] :=
  (handshake_sends_get_once ⟨[], none⟩ noInsertFails 0 (State.fresh ⟨[], none⟩ (fun _ => []))
    none
    (Node.mk none none
      (some [Node.mk (some ["Einstellungen"]) none none (some "7"),
        Node.mk (some ["Informationen"]) none none (some "12")]) none)
    [Node.mk (some ["Einstellungen"]) none none (some "7"),
      Node.mk (some ["Informationen"]) none none (some "12")]
    (Node.mk (some ["Informationen"]) none none (some "12"))
    rfl rfl rfl rfl).1

theorem filterSections_hasOwnProperty (config : Config) (items : List Node) (n : Node)
    (hn : n ∈ filterSections config items) :
    JSObj.hasOwnProperty config.importValues (n.firstName.getD "undefined") = true := by
  unfold filterSections at hn
  exact (List.mem_filter.mp hn).2

/-- C9, as the code has it: the category map that `handleInformationenContent` passes to
`saveSnapshotData` is the flattening of the top-level nodes whose name is a key of
`import_values`; each of its categories is such a key, and it is the same for any two
configurations with the same keys, whatever their include and exclude rules: only the
top-level category filter is applied before persistence. -/
theorem categoryData_only_top_level_filter (config : Config) (fails : InsertOracle)
    (now : Nat) (s : State) (items : List Node) :
    (handleInformationenContent config fails now s items).db =
      (saveSnapshotData fails s.db now
        (handleInformationenContent.categoryData config items)).2 ∧
    handleInformationenContent.categoryData config items =
      collectCategoryData (items.filter fun n =>
        JSObj.hasOwnProperty config.importValues (n.firstName.getD "undefined")) ∧
    (∀ key, JSObj.hasOwnProperty (handleInformationenContent.categoryData config items) key
        = true → JSObj.hasOwnProperty config.importValues key = true) ∧
    (∀ config2 : Config,
      (∀ key, JSObj.hasOwnProperty config2.importValues key =
        JSObj.hasOwnProperty config.importValues key) →
      handleInformationenContent.categoryData config2 items =
        handleInformationenContent.categoryData config items) := by
  refine ⟨by simp [handleInformationenContent, SaveResult.gtZero], rfl, ?_, ?_⟩
  · intro key hkey
    by_cases hp : key = "__proto__"
    · have hno := hasOwnProperty_collectCategoryData_proto (filterSections config items)
      rw [hp] at hkey
      unfold handleInformationenContent.categoryData at hkey
      rw [hno] at hkey
      exact absurd hkey (by decide)
    · obtain ⟨n, hn, _, hname⟩ :=
        (hasOwnProperty_collectCategoryData (filterSections config items) key hp).mp hkey
      have h := filterSections_hasOwnProperty config items n hn
      rw [hname] at h
      exact h
  · intro config2 hsame
    unfold handleInformationenContent.categoryData filterSections
    congr 1
    apply List.filter_congr
    intro n _
    exact hsame _

/-- C9 as stated fails: with the rule `exclude: [Vorlauf]` for `Temperaturen`, and with
the rule `include: [Rücklauf]`, the field `Vorlauf` is filtered out by the rule and yet
occurs in the category map passed to `saveSnapshotData`. -/
theorem categoryData_excluded_field_counterexample :
    filteredOut (FilterConfig.mk none (some ["Vorlauf"]) none []) "Vorlauf" = true ∧
    handleInformationenContent.categoryData
      ⟨[("Temperaturen", FilterConfig.mk none (some ["Vorlauf"]) none [])], none⟩
      [Node.mk (some ["Temperaturen"]) none
        (some [Node.mk (some ["Vorlauf"]) (some ["45.3°C"]) none none,
          Node.mk (some ["Rücklauf"]) (some ["38.0°C"]) none none]) none]
      = [("Temperaturen", .flat [("Vorlauf", some "45.3°C"), ("Rücklauf", some "38.0°C")])] ∧
    filteredOut (FilterConfig.mk (some ["Rücklauf"]) none none []) "Vorlauf" = true ∧
    handleInformationenContent.categoryData
      ⟨[("Temperaturen", FilterConfig.mk (some ["Rücklauf"]) none none [])], none⟩
      [Node.mk (some ["Temperaturen"]) none
        (some [Node.mk (some ["Vorlauf"]) (some ["45.3°C"]) none none,
          Node.mk (some ["Rücklauf"]) (some ["38.0°C"]) none none]) none]
      = [("Temperaturen", .flat [("Vorlauf", some "45.3°C"), ("Rücklauf", some "38.0°C")])] := by
  decide


theorem filter_filter_self {α : Type} (p : α → Bool) (l : List α) :
    (l.filter p).filter p = l.filter p := by
  rw [List.filter_filter]
  apply List.filter_congr
  intro a _
  simp

/-- C11: `filterItems` is idempotent: filtering an already filtered node list with the
same config changes nothing. -/
theorem filterItems_idempotent (items : List Node) (config : Option FilterConfig) :
    filterItems (filterItems items config) config = filterItems items config := by
  cases config with
  | none => rfl
  | some c =>
    unfold filterItems
    dsimp only
    split
    · rfl
    · split
      · exact filter_filter_self _ _
      · split
        · exact filter_filter_self _ _
        · rfl

/-- C12, as the code has it: under an include rule the result of `filterItems` holds no
node without a name; under an exclude rule (no include rule present) every node without
a name is kept. -/
theorem filterItems_unnamed_nodes (items : List Node) (includeRule : Option (List String))
    (excludeRule : Option (List String)) (nested : Option (List (String × FilterConfig)))
    (others : List String) (names : List String) :
    (∀ n ∈ filterItems items (some (FilterConfig.mk (some names) excludeRule nested others)),
      n.firstName ≠ none) ∧
    (∀ n ∈ items, n.firstName = none →
      n ∈ filterItems items (some (FilterConfig.mk none (some names) nested others))) ∧
    (∀ n ∈ items, n.firstName = none →
      (n ∈ filterItems items (some (FilterConfig.mk includeRule excludeRule nested others))
        ↔ includeRule = none)) := by
  refine ⟨?_, ?_, ?_⟩
  · intro n hn hnone
    simp only [filterItems, FilterConfig.keyCount, FilterConfig.includeRule] at hn
    rw [if_neg (by simp)] at hn
    have h := (List.mem_filter.mp hn).2
    rw [hnone] at h
    exact absurd h (by simp [includesName])
  · intro n hn hnone
    simp only [filterItems, FilterConfig.keyCount, FilterConfig.includeRule,
      FilterConfig.excludeRule]
    rw [if_neg (by simp)]
    exact List.mem_filter.mpr ⟨hn, by simp [hnone, includesName]⟩
  · intro n hn hnone
    cases includeRule with
    | some inc =>
      simp only [filterItems, FilterConfig.keyCount, FilterConfig.includeRule]
      rw [if_neg (by simp)]
      simp [List.mem_filter, hnone, includesName]
    | none =>
      simp only [filterItems, FilterConfig.includeRule, FilterConfig.excludeRule, iff_true]
      split
      · exact hn
      · cases excludeRule with
        | some exc => exact List.mem_filter.mpr ⟨hn, by simp [hnone, includesName]⟩
        | none => exact hn

/-- C12 as stated fails under an exclude rule: the node without a name stays in the
result. -/
theorem filterItems_exclude_keeps_unnamed_counterexample :
    (filterItems
      [Node.mk none (some ["v"]) none none, Node.mk (some ["a"]) (some ["1"]) none none]
      (some (FilterConfig.mk none (some ["a"]) none []))).map Node.firstName = [none] := by
  decide


theorem collectSectionData.loop_append (a b : List Node) (acc : Section) :
    collectSectionData.loop (a ++ b) acc =
      collectSectionData.loop b (collectSectionData.loop a acc) := by
  induction a generalizing acc with
  | nil => simp only [List.nil_append, collectSectionData.loop]
  | cons n rest ih =>
    simp only [List.cons_append, collectSectionData.loop]
    exact ih _

theorem Node.firstName_mk (nm value : Option (List String)) (item : Option (List Node))
    (ident : Option String) :
    (Node.mk nm value item ident).firstName =
      (match nm with
        | some names => names.head?
        | none => none) := rfl

theorem collectSectionData.body_unnamed (n : Node) (acc : Section)
    (h : truthy n.firstName = false) : collectSectionData.body n acc = acc := by
  obtain ⟨nm, value, item, ident⟩ := n
  rw [Node.firstName_mk] at h
  cases item with
  | none =>
    simp only [collectSectionData.body, h, Bool.and_false, Bool.false_eq_true, if_false]
  | some children =>
    simp only [collectSectionData.body, h, Bool.and_false, Bool.false_eq_true, if_false]

/-- C13, as the code has it: the flattener descends only through named nodes; a node
with no name (or an empty one) contributes nothing, whatever leaves lie beneath it:
the map for a section is the same with and without that node. -/
theorem collectSectionData_skips_unnamed (before after : List Node) (n : Node)
    (h : truthy n.firstName = false) :
    collectSectionData (before ++ n :: after) = collectSectionData (before ++ after) := by
  unfold collectSectionData
  rw [collectSectionData.loop_append, collectSectionData.loop_append]
  simp only [collectSectionData.loop]
  rw [collectSectionData.body_unnamed n _ h]

/-- Witness for C13 as amended: an unnamed wrapper holding the leaf `y` between the
leaves `x` and `z`. -/
theorem collectSectionData_skips_unnamed_witness :
    collectSectionData
      ([Node.mk (some ["x"]) (some ["1"]) none none] ++
        Node.mk none none (some [Node.mk (some ["y"]) (some ["2"]) none none]) none ::
        [Node.mk (some ["z"]) (some ["3"]) none none])
      = collectSectionData
        ([Node.mk (some ["x"]) (some ["1"]) none none] ++
          [Node.mk (some ["z"]) (some ["3"]) none none]) :=
  collectSectionData_skips_unnamed [Node.mk (some ["x"]) (some ["1"]) none none]
    [Node.mk (some ["z"]) (some ["3"]) none none]
    (Node.mk none none (some [Node.mk (some ["y"]) (some ["2"]) none none]) none) rfl

/-- C13 as stated fails: the named leaf `y` beneath a node with children and no name is
not in the map returned by `collectSectionData`. -/
theorem collectSectionData_unnamed_wrapper_counterexample :
    collectSectionData
      [Node.mk (some ["x"]) (some ["1"]) none none,
        Node.mk none none (some [Node.mk (some ["y"]) (some ["2"]) none none]) none]
      = [("x", some "1")] ∧
    JSObj.hasOwnProperty (collectSectionData
      [Node.mk (some ["x"]) (some ["1"]) none none,
        Node.mk none none (some [Node.mk (some ["y"]) (some ["2"]) none none]) none]) "y"
      = false := by
  decide


theorem onError_intervals_send_nothing (config : Config) (s : State) (k : Nat) :
    (run config (onError s) (List.replicate k Event.interval)).sent = s.sent ∧
    (run config (onError s) (List.replicate k Event.interval)).isConnected = false := by
  suffices h : ∀ t : State, t.isConnected = false →
      (run config t (List.replicate k Event.interval)).sent = t.sent ∧
      (run config t (List.replicate k Event.interval)).isConnected = false from
    h (onError s) rfl
  induction k with
  | zero => intro t ht; exact ⟨rfl, ht⟩
  | succ k ih =>
    intro t ht
    have hstep : step config t Event.interval = t := by
      simp only [step, onInterval, ht, Bool.false_eq_true, if_false, ite_self]
    simp only [run, List.replicate_succ, List.foldl_cons, hstep]
    exact ih t ht

/-- C14 fails on the code for `onError`: in the Subscribed state a fresh controller
reaches by an open notification and the handshake, `onError` sets `isConnected` to false
but leaves the recurring poll timer armed, while `onClose` disarms it; the same holds
from every Subscribed state.  The armed timer's callback sends nothing while the
controller stays disconnected. -/
theorem onError_leaves_timer_armed :
    isSubscribed subscribedExample = true ∧
    subscribedExample.sent = ["LOGIN;0", "GET;12"] ∧
    (onError subscribedExample).isConnected = false ∧
    (onError subscribedExample).timerActive = true ∧
    (onClose subscribedExample).isConnected = false ∧
    (onClose subscribedExample).timerActive = false ∧
    (∀ s : State, isSubscribed s = true →
      (onClose s).isConnected = false ∧ (onClose s).timerActive = false ∧
      (onError s).isConnected = false ∧ (onError s).timerActive = true) ∧
    (∀ (config : Config) (s : State) (k : Nat),
      (run config (onError s) (List.replicate k Event.interval)).sent = s.sent) := by
  refine ⟨by decide, by decide, by decide, by decide, by decide, by decide, ?_,
    fun config s k => (onError_intervals_send_nothing config s k).1⟩
  intro s h
  simp only [isSubscribed, Bool.and_eq_true] at h
  refine ⟨?_, ?_, rfl, h.2⟩
  · simp [onClose, h.1.2]
  · simp [onClose, h.1.2]

theorem insertPlan_entry_of_unknown (timestamp : Nat) (category : String) (data : CatVal)
    (h : category ∉ knownCategories) : insertPlan.entry timestamp category data = [] := by
  unfold insertPlan.entry
  split
  · exact absurd (by simp [knownCategories]) h
  · exact absurd (by simp [knownCategories]) h
  · exact absurd (by simp [knownCategories]) h
  · exact absurd (by simp [knownCategories]) h
  · exact absurd (by simp [knownCategories]) h
  · exact absurd (by simp [knownCategories]) h
  · rfl

theorem insertPlan_cons (timestamp : Nat) (p : String × CatVal)
    (rest : List (String × CatVal)) :
    insertPlan timestamp (p :: rest) =
      insertPlan.entry timestamp p.1 p.2 ++ insertPlan timestamp rest := by
  simp [insertPlan, List.flatMap_cons]

theorem insertPlan_append (timestamp : Nat) (a b : List (String × CatVal)) :
    insertPlan timestamp (a ++ b) = insertPlan timestamp a ++ insertPlan timestamp b := by
  induction a with
  | nil => rfl
  | cons p rest ih => rw [List.cons_append, insertPlan_cons, insertPlan_cons, ih,
      List.append_assoc]

theorem insertPlan_knownEntries (timestamp : Nat) (entries : List (String × CatVal)) :
    insertPlan timestamp entries = insertPlan timestamp (knownEntries entries) := by
  induction entries with
  | nil => rfl
  | cons p rest ih =>
    unfold knownEntries at *
    by_cases hk : p.1 ∈ knownCategories
    · rw [List.filter_cons_of_pos (by simpa using hk), insertPlan_cons, insertPlan_cons, ih]
    · rw [List.filter_cons_of_neg (by simpa using hk), insertPlan_cons,
        insertPlan_entry_of_unknown timestamp p.1 p.2 hk, List.nil_append, ih]

theorem arrayIndex_of_known (key : String) (h : key ∈ knownCategories) :
    JSObj.arrayIndex key = none := by
  simp only [knownCategories, List.mem_cons, List.mem_singleton, List.not_mem_nil,
    or_false] at h
  rcases h with e | e | e | e | e | e <;> subst e <;> decide

theorem knownEntries_ownEntries (cd : JSObj CatVal) :
    knownEntries (JSObj.ownEntries cd) = knownEntries cd := by
  unfold knownEntries JSObj.ownEntries
  rw [List.filter_append]
  have h1 : List.filter (fun p : String × CatVal => decide (p.1 ∈ knownCategories))
      (List.insertionSort JSObj.indexLe
        (List.filter (fun p => (JSObj.arrayIndex p.1).isSome) cd)) = [] := by
    rw [List.filter_eq_nil_iff]
    intro p hp hk
    have hp2 := (List.perm_insertionSort _ _).mem_iff.mp hp
    have hidx := (List.mem_filter.mp hp2).2
    rw [arrayIndex_of_known p.1 (by simpa using hk)] at hidx
    exact absurd hidx (by decide)
  rw [h1, List.nil_append, List.filter_filter]
  apply List.filter_congr
  intro p _
  by_cases hk : p.1 ∈ knownCategories
  · simp [hk, arrayIndex_of_known p.1 hk]
  · simp [hk]

theorem insertPlan_ownEntries (timestamp : Nat) (cd : JSObj CatVal) :
    insertPlan timestamp (JSObj.ownEntries cd) = insertPlan timestamp (knownEntries cd) := by
  rw [insertPlan_knownEntries, knownEntries_ownEntries]

theorem saveSnapshotData_eq_runPlan (fails : InsertOracle) (db : Store) (now : Nat)
    (cd : JSObj CatVal) :
    saveSnapshotData fails db now cd =
      match runPlan fails (insertPlan (now / 1000) (knownEntries cd)) (db, 0) with
      | .error (_, db1) => ({ snapshots := 0, categories := 0 }, db1)
      | .ok (db1, savedCategories) =>
        ({ snapshots := if savedCategories > 0 then 1 else 0,
           categories := savedCategories }, db1) := by
  simp only [saveSnapshotData, loop_eq_runPlan, insertPlan_ownEntries]

theorem knownEntries_defineOwn_unknown (cd : JSObj CatVal) (key : String) (data : CatVal)
    (h : key ∉ knownCategories) :
    knownEntries (JSObj.defineOwn cd key data) = knownEntries cd := by
  induction cd with
  | nil => simp [JSObj.defineOwn, knownEntries, h]
  | cons p rest ih =>
    obtain ⟨k, w⟩ := p
    unfold knownEntries at *
    by_cases hk : k = key
    · subst hk
      simp [JSObj.defineOwn, h]
    · simp only [JSObj.defineOwn, hk, if_false, List.filter_cons, ih]

theorem knownEntries_set_unknown (cd : JSObj CatVal) (key : String) (data : CatVal)
    (h : key ∉ knownCategories) : knownEntries (JSObj.set cd key data) = knownEntries cd := by
  unfold JSObj.set
  split
  · rfl
  · exact knownEntries_defineOwn_unknown cd key data h

/-- C15: a category map none of whose keys is a known category name (in particular the
empty map) makes `saveSnapshotData` run no insert, leave the store as it is and return
`snapshots == 0`, `categories == 0`; two category maps with the same entries under known
names give the same plan of inserts, the same result and the same store, so adding an
unknown key (or assigning to one) changes nothing. -/
theorem saveSnapshotData_ignores_unknown (fails : InsertOracle) (db : Store) (now : Nat)
    (cd other : JSObj CatVal) (key : String) (data : CatVal) :
    saveSnapshotData fails db now [] = ({ snapshots := 0, categories := 0 }, db) ∧
    ((∀ p ∈ cd, p.1 ∉ knownCategories) →
      insertPlan (now / 1000) (JSObj.ownEntries cd) = [] ∧
      saveSnapshotData fails db now cd = ({ snapshots := 0, categories := 0 }, db)) ∧
    (knownEntries cd = knownEntries other →
      insertPlan (now / 1000) (JSObj.ownEntries cd)
        = insertPlan (now / 1000) (JSObj.ownEntries other) ∧
      saveSnapshotData fails db now cd = saveSnapshotData fails db now other) ∧
    (key ∉ knownCategories →
      saveSnapshotData fails db now (JSObj.set cd key data) = saveSnapshotData fails db now cd) := by
  refine ⟨rfl, ?_, ?_, ?_⟩
  · intro hall
    have hnil : knownEntries cd = [] := by
      unfold knownEntries
      rw [List.filter_eq_nil_iff]
      intro p hp hk
      exact hall p hp (by simpa using hk)
    refine ⟨by rw [insertPlan_ownEntries, hnil]; rfl, ?_⟩
    rw [saveSnapshotData_eq_runPlan, hnil]
    rfl
  · intro hsame
    refine ⟨by rw [insertPlan_ownEntries, insertPlan_ownEntries, hsame], ?_⟩
    rw [saveSnapshotData_eq_runPlan, saveSnapshotData_eq_runPlan, hsame]
  · intro hkey
    rw [saveSnapshotData_eq_runPlan, saveSnapshotData_eq_runPlan,
      knownEntries_set_unknown cd key data hkey]

/-- Witness for C15: the map with the only key `Foo`, and the map with `Temperaturen`
to which the unknown key `Neu` is added. -/
theorem saveSnapshotData_ignores_unknown_witness :
    saveSnapshotData noInsertFails (fun _ => []) 5000 [("Foo", .flat [("a", some "1")])]
      = ({ snapshots := 0, categories := 0 }, fun _ => []) ∧
    saveSnapshotData noInsertFails (fun _ => []) 5000
      (JSObj.set [("Temperaturen", .flat [("Vorlauf", some "45.3°C")])] "Neu" (.flat []))
      = saveSnapshotData noInsertFails (fun _ => []) 5000
        [("Temperaturen", .flat [("Vorlauf", some "45.3°C")])] :=
  ⟨((saveSnapshotData_ignores_unknown noInsertFails (fun _ => []) 5000
      [("Foo", .flat [("a", some "1")])] [] "Neu" (.flat [])).2.1 (by decide)).2,
    (saveSnapshotData_ignores_unknown noInsertFails (fun _ => []) 5000
      [("Temperaturen", .flat [("Vorlauf", some "45.3°C")])] [] "Neu" (.flat [])).2.2.2
      (by decide)⟩


theorem ownEntries_of_no_arrayIndex {V : Type} (o : JSObj V)
    (h : ∀ p ∈ o, JSObj.arrayIndex p.1 = none) : JSObj.ownEntries o = o := by
  unfold JSObj.ownEntries
  have h1 : o.filter (fun p => (JSObj.arrayIndex p.1).isSome) = [] := by
    rw [List.filter_eq_nil_iff]
    intro p hp
    rw [h p hp]
    decide
  have h2 : o.filter (fun p => !(JSObj.arrayIndex p.1).isSome) = o := by
    rw [List.filter_eq_self]
    intro p hp
    rw [h p hp]
    rfl
  rw [h1, h2]
  rfl

theorem orNull_values_get (d : Section) (i : Nat) :
    Cell.orNull (((d.map Prod.snd).map RawValue.ofOption).get? i) = abschaltungSlot d i := by
  unfold abschaltungSlot
  rw [List.get?_eq_getElem?, List.get?_eq_getElem?, List.getElem?_map, List.getElem?_map]
  cases d[i]? with
  | none => rfl
  | some p =>
    obtain ⟨k, v⟩ := p
    cases v with
    | none => rfl
    | some s =>
      by_cases hs : s = "" <;>
        simp [Cell.orNull, RawValue.ofOption, RawValue.isTruthy, hs]

/-- C16, as the code has it: for an Abschaltungen field map none of whose field names
is an array index, with the values v1..vn in the order the fields were created, the row
that `saveAbschaltungen` inserts has in slot i (1 to 5) the value v_i when that is a
non-empty string, and `null` when v_i is empty or `undefined` or when i > n, whatever
the field names are otherwise. -/
theorem saveAbschaltungen_positional (db : Store) (timestamp : Nat) (d : Section)
    (hnames : ∀ p ∈ d, JSObj.arrayIndex p.1 = none) :
    saveAbschaltungen.args timestamp (.flat d) =
      .ok ⟨timestamp, [abschaltungSlot d 0, abschaltungSlot d 1, abschaltungSlot d 2,
        abschaltungSlot d 3, abschaltungSlot d 4]⟩ ∧
    saveAbschaltungen noInsertFails db timestamp (.flat d) =
      .ok (db.insert .abschaltungen
        ⟨timestamp, [abschaltungSlot d 0, abschaltungSlot d 1, abschaltungSlot d 2,
          abschaltungSlot d 3, abschaltungSlot d 4]⟩) ∧
    (∀ i, d.length ≤ i → abschaltungSlot d i = .null) ∧
    (∀ i name s, d.get? i = some (name, some s) → s ≠ "" →
      abschaltungSlot d i = .raw (.str s)) := by
  have hargs : saveAbschaltungen.args timestamp (.flat d) =
      .ok ⟨timestamp, [abschaltungSlot d 0, abschaltungSlot d 1, abschaltungSlot d 2,
        abschaltungSlot d 3, abschaltungSlot d 4]⟩ := by
    simp only [saveAbschaltungen.args, CatVal.values, JSObj.values,
      ownEntries_of_no_arrayIndex d hnames, orNull_values_get]
  refine ⟨hargs, ?_, ?_, ?_⟩
  · rw [saveAbschaltungen, hargs, runInsert_ok]
  · intro i hi
    unfold abschaltungSlot
    rw [List.get?_eq_none.mpr hi]
  · intro i name s hget hne
    unfold abschaltungSlot
    rw [hget]
    simp [hne]

/-- Witness for C16 as amended: two shutdown entries named by their time. -/
theorem saveAbschaltungen_positional_witness :
    saveAbschaltungen.args 5
      (.flat [("01.02.24 10:00", some "Keine Anf."), ("31.01.24 09:30", some "EVU")]) =
      .ok ⟨5, [.raw (.str "Keine Anf."), .raw (.str "EVU"), .null, .null, .null]⟩ :=
  (saveAbschaltungen_positional (fun _ => []) 5
    [("01.02.24 10:00", some "Keine Anf."), ("31.01.24 09:30", some "EVU")]
    (by decide)).1

/-- C16 as stated fails: with the field names `b` then `1` (values `x` then `y`) the
row holds `y` in slot 1 and `x` in slot 2, and an empty value is stored as `null`, not
as the empty string. -/
theorem saveAbschaltungen_order_counterexample :
    saveAbschaltungen.args 5 (.flat [("b", some "x"), ("1", some "y")]) =
      .ok ⟨5, [.raw (.str "y"), .raw (.str "x"), .null, .null, .null]⟩ ∧
    collectSectionData
      [Node.mk (some ["b"]) (some ["x"]) none none,
        Node.mk (some ["1"]) (some ["y"]) none none] = [("b", some "x"), ("1", some "y")] ∧
    saveAbschaltungen.args 5 (.flat [("a", some ""), ("c", some "z")]) =
      .ok ⟨5, [.null, .raw (.str "z"), .null, .null, .null]⟩ := by
  decide


theorem handleInformationenContent_total (config : Config) (fails : InsertOracle) (now : Nat)
    (s : State) (items : List Node) :
    (handleInformationenContent config fails now s items).totalReadingsSaved =
      s.totalReadingsSaved := by
  simp [handleInformationenContent, SaveResult.gtZero]

theorem setupInformationenRequest_total (s : State) (items : List Node) :
    (setupInformationenRequest s items).totalReadingsSaved = s.totalReadingsSaved := by
  induction items with
  | nil => rfl
  | cons item rest ih =>
    simp only [setupInformationenRequest]
    split
    · rfl
    · exact ih

theorem processMessage_total (config : Config) (fails : InsertOracle) (now : Nat)
    (s : State) (result : Message) :
    (processMessage config fails now s result).totalReadingsSaved =
      s.totalReadingsSaved := by
  have hc : (processMessage.content config fails now s result).totalReadingsSaved =
      s.totalReadingsSaved := by
    unfold processMessage.content
    split
    · split <;> exact handleInformationenContent_total _ _ _ _ _
    · rfl
  unfold processMessage processMessage.navigation
  split
  · split
    · split
      · rw [setupInformationenRequest_total, hc]
      · exact hc
    · exact hc
  · exact hc

theorem step_total (config : Config) (s : State) (event : Event) :
    (step config s event).totalReadingsSaved = s.totalReadingsSaved := by
  cases event with
  | opened => rfl
  | message result now fails => exact processMessage_total config fails now s result
  | interval =>
    simp only [step, onInterval]
    split
    · split <;> rfl
    · rfl
  | closed =>
    simp only [step, onClose]
    split <;> rfl
  | failed => rfl

theorem run_total (config : Config) (s : State) (events : List Event) :
    (run config s events).totalReadingsSaved = s.totalReadingsSaved := by
  induction events generalizing s with
  | nil => rfl
  | cons event rest ih =>
    have h := ih (step config s event)
    rw [step_total] at h
    exact h

/-- C17 fails on the code: for a content payload with the category `Temperaturen`, for
which `saveSnapshotData` reports `categories == 1`, `handleInformationenContent` leaves
`totalReadingsSaved` at 0; in general the handler never changes the counter (the test
`savedCount > 0` compares the returned object with a number), so after any sequence of
events from a fresh controller the total reported at shutdown is 0. -/
theorem totalReadingsSaved_stays_zero :
    (saveSnapshotData noInsertFails (fun _ => []) 5000
      (handleInformationenContent.categoryData
        ⟨[("Temperaturen", FilterConfig.mk none none none [])], none⟩
        [Node.mk (some ["Temperaturen"]) none
          (some [Node.mk (some ["Vorlauf"]) (some ["45.3°C"]) none none]) none])).1
      = { snapshots := 1, categories := 1 } ∧
    (handleInformationenContent
      ⟨[("Temperaturen", FilterConfig.mk none none none [])], none⟩ noInsertFails 5000
      (State.fresh ⟨[("Temperaturen", FilterConfig.mk none none none [])], none⟩
        (fun _ => []))
      [Node.mk (some ["Temperaturen"]) none
        (some [Node.mk (some ["Vorlauf"]) (some ["45.3°C"]) none none]) none]).totalReadingsSaved
      = Counter.number 0 ∧
    ((handleInformationenContent
      ⟨[("Temperaturen", FilterConfig.mk none none none [])], none⟩ noInsertFails 5000
      (State.fresh ⟨[("Temperaturen", FilterConfig.mk none none none [])], none⟩
        (fun _ => []))
      [Node.mk (some ["Temperaturen"]) none
        (some [Node.mk (some ["Vorlauf"]) (some ["45.3°C"]) none none]) none]).db
      Table.temperaturen).length = 1 ∧
    (∀ (config : Config) (fails : InsertOracle) (now : Nat) (s : State) (items : List Node),
      (handleInformationenContent config fails now s items).totalReadingsSaved =
        s.totalReadingsSaved) ∧
    (∀ (config : Config) (db : Store) (events : List Event),
      shutdown.reportedTotal (shutdown (run config (State.fresh config db) events)) =
        Counter.number 0) := by
  refine ⟨by decide, by decide, by decide, handleInformationenContent_total, ?_⟩
  intro config db events
  have h := run_total config (State.fresh config db) events
  unfold shutdown.reportedTotal shutdown
  split
  · exact h
  · exact h


end EnergyLogger
